import Mathlib

/-!
Verification of the multi-tenant WhatsApp bot manager
(`services/multiUserBotManager.js`, `services/aiService.js`, the rate-limiting
middleware) against its natural-language specification.

The JavaScript source is shallowly embedded: in-memory `Map`s become
association lists (`mapGet`/`mapSet`/`mapDel` reproduce `Map.get`/`set`/
`delete` semantics, including append-at-end insertion order), fallible
external calls (database, transport sends, media download, the completion
backend) are threaded through an explicit `Env` record of outcomes, and
thrown/caught JavaScript exceptions become explicit control flow mirroring
each `try`/`catch` block of the source.  The text returned by the completion backend is abstracted as an `AIOutcome`; the conversation-history ledger kept by
`AIService.generateResponse` is modelled separately and exactly
(`generateResponse` below).
-/

namespace WABot

/-- Embeds `Map.get` on an association list: first binding wins (keys stay unique). -/
def mapGet {α : Type} : List (String × α) → String → Option α
  | [], _ => none
  | (k, v) :: ps, key => if key = k then some v else mapGet ps key

/-- Embeds `Map.set`: replace in place if the key exists, else append at the end,
matching JavaScript `Map` insertion-order semantics. -/
def mapSet {α : Type} : List (String × α) → String → α → List (String × α)
  | [], key, v => [(key, v)]
  | (k, w) :: ps, key, v =>
      if key = k then (k, v) :: ps else (k, w) :: mapSet ps key v

/-- Embeds `Map.delete`. -/
def mapDel {α : Type} : List (String × α) → String → List (String × α)
  | [], _ => []
  | p :: ps, key => if p.1 = key then mapDel ps key else p :: mapDel ps key

/-- Contiguous-segment containment on character lists, used to embed
JavaScript `String.prototype.includes`. -/
def segIn (pat : List Char) : List Char → Bool
  | [] => pat.isEmpty
  | c :: cs => pat.isPrefixOf (c :: cs) || segIn pat cs

/-- JavaScript `s.includes(pat)`. -/
def jsIncludes (s pat : String) : Bool :=
  segIn pat.data s.data

/-- JavaScript `s.toLowerCase()` (character-wise lowering). -/
def jsLower (s : String) : String :=
  String.mk (s.data.map Char.toLower)

/-- JavaScript `s.trim()`: strip leading and trailing whitespace. -/
def jsTrim (s : String) : String :=
  String.mk (((s.data.dropWhile Char.isWhitespace).reverse.dropWhile
      Char.isWhitespace).reverse)

/-- JavaScript `s.startsWith(pat)`. -/
def jsStartsWith (s pat : String) : Bool :=
  pat.data.isPrefixOf s.data

/-- JavaScript `s.substring(0, n)`. -/
def jsTake (s : String) (n : Nat) : String :=
  String.mk (s.data.take n)

/-- JavaScript `(s || '').toLowerCase().trim()` as applied to message bodies. -/
def jsNorm (s : String) : String :=
  jsTrim (jsLower s)

/-- Outcome of one call to the external completion (text/vision) backend,
classified the way `aiService.js` classifies the errors it catches. -/
inductive AIOutcome where
  | success (text : String)
  | quotaExceeded
  | authError
  | otherError
deriving DecidableEq

/-- The string `generateResponse` hands back to its caller: the backend text
on success, otherwise one of the three user-facing apology strings chosen by
the `catch` block of `aiService.js`. -/
def aiReply : AIOutcome → String
  | .success t => t
  | .quotaExceeded =>
      "Sorry, the AI service quota has been exceeded. Please contact the administrator."
  | .authError =>
      "Sorry, there is a configuration issue. Please contact the administrator."
  | .otherError =>
      "Sorry, I am having trouble processing your request right now. Please try again later."

/-- Whether the backend call failed (took the `catch` path). -/
def AIOutcome.isFailure : AIOutcome → Bool
  | .success _ => false
  | _ => true

/-! ### Conversation history model (`aiService.js`) -/

inductive Role where
  | user
  | assistant
deriving DecidableEq

structure HistMsg where
  role : Role
  content : String
deriving DecidableEq

/-- The value of `this.maxHistoryLength` in `aiService.js`. -/
def maxHistoryLength : Nat := 4

/-- Per-service store: `this.conversationHistory`, a `Map` from chat id to the
ordered message list. -/
structure AIServiceState where
  conversationHistory : List (String × List HistMsg)
deriving DecidableEq

/-- The alternation fix at the top of `generateResponse`: if the last stored
message is a user turn, pop it before appending the new user turn. -/
def fixAlt (h : List HistMsg) : List HistMsg :=
  if (h.getLast?).map HistMsg.role = some Role.user then h.dropLast else h

/-- The trim after the user push: `if (history.length > maxHistoryLength * 2)
then shift twice` — two oldest entries evicted from the front. -/
def trimHist (h : List HistMsg) : List HistMsg :=
  if h.length > maxHistoryLength * 2 then (h.drop 1).drop 1 else h

/-- The user-message content built by `generateResponse` (file description
appended when a file is attached). -/
def userContent (message : String) (fileDesc : Option String) : String :=
  match fileDesc with
  | some d => message ++ "\n\n[File attached: " ++ d ++ "]"
  | none => message

/-- History evolution performed by one `generateResponse` call: alternation
fix, user push, trim, and — only when the backend call succeeds — the
assistant push. -/
def evolveHist (h : List HistMsg) (message : String) (fileDesc : Option String)
    (outcome : AIOutcome) : List HistMsg :=
  let h2 := trimHist (fixAlt h ++ [⟨Role.user, userContent message fileDesc⟩])
  match outcome with
  | .success t => h2 ++ [⟨Role.assistant, t⟩]
  | _ => h2

/-- Embeds `AIService.generateResponse`: updates the per-chat history and returns
either the backend text or the apology chosen by the catch block.  On failure
the already-pushed user turn stays in the stored history (the code has no
rollback). -/
def generateResponse (s : AIServiceState) (chatId message : String)
    (fileDesc : Option String) (outcome : AIOutcome) : AIServiceState × String :=
  let h := (mapGet s.conversationHistory chatId).getD []
  (⟨mapSet s.conversationHistory chatId (evolveHist h message fileDesc outcome)⟩,
   aiReply outcome)

/-- One scheduled `generateResponse` call. -/
structure CallSpec where
  chatId : String
  message : String
  fileDesc : Option String
  outcome : AIOutcome
deriving DecidableEq

/-- Run a sequence of `generateResponse` calls. -/
def runGen : AIServiceState → List CallSpec → AIServiceState
  | s, [] => s
  | s, c :: cs => runGen (generateResponse s c.chatId c.message c.fileDesc c.outcome).1 cs

/-- The stored history of one conversation. -/
def histOf (s : AIServiceState) (chatId : String) : List HistMsg :=
  (mapGet s.conversationHistory chatId).getD []

/-- Strict user/assistant alternation starting from the role `b` expects
(`true` = a user turn is expected next). -/
def roleOk : Bool → List HistMsg → Bool
  | _, [] => true
  | b, m :: ms =>
      (m.role = (if b then Role.user else Role.assistant) : Bool) && roleOk (!b) ms

/-- Canonical pair form used in the history invariant proof: a run of
completed user/assistant exchanges. -/
def pairsHist : List (String × String) → List HistMsg
  | [] => []
  | (u, a) :: ps => ⟨Role.user, u⟩ :: ⟨Role.assistant, a⟩ :: pairsHist ps

/-- Optional trailing (unanswered) user turn. -/
def optUser : Option String → List HistMsg
  | none => []
  | some u => [⟨Role.user, u⟩]

/-- Shape invariant maintained by `generateResponse`: the stored history is a
run of at most `maxHistoryLength` completed exchanges, optionally followed by
one unanswered user turn (left behind by a failed call). -/
def HistInv (h : List HistMsg) : Prop :=
  ∃ ps t, h = pairsHist ps ++ optUser t ∧ ps.length ≤ maxHistoryLength ∧
    (t.isSome → ps.length ≤ maxHistoryLength - 1)

/-! ### Session manager data model (`multiUserBotManager.js`) -/

/-- Downloaded WhatsApp media (`message.downloadMedia()` result). -/
structure Media where
  mimetype : String
  data : String
  filename : Option String
deriving DecidableEq

/-- An inbound transport message (the fields of `message` that the manager
reads). `sender` embeds `message.from`. -/
structure Msg where
  sender : String
  fromMe : Bool
  body : String
  hasMedia : Bool
  media : Option Media
deriving DecidableEq

/-- A tenant file-library row (`db.getTenantFiles`). -/
structure TFile where
  file_label : String
  file_url : String
  file_name : String
deriving DecidableEq

/-- Outcomes of the fallible external calls a message-handling pass can make
(database, transport sends, media transfer, completion backend).  `true`
means the awaited call resolves; `false` means it throws. -/
structure Env where
  getChatOk : Bool
  typingOk : Bool
  sendOk : Bool
  downloadOk : Bool
  mediaFromUrlOk : Bool
  uploadOk : Bool
  updateOrderOk : Bool
  completeOrderOk : Bool
  forwardOk : Bool
  dbFilesOk : Bool
  createOrderId : Option Nat
  tenantFiles : List TFile
  paymentFile : Option TFile
  visionOutcome : AIOutcome
  aiOutcome : AIOutcome
deriving DecidableEq

/-- The per-session record kept in `this.sessions` (client handle and AI
service omitted: the client is opaque, and the completion call is abstracted
through `Env`). -/
structure SessionInfo where
  isReady : Bool
  qrCode : Option String
  tenantId : Option Nat
deriving DecidableEq

/-- The `state` strings of the order flow. -/
inductive OrderStateTag where
  | awaiting_order_confirmation
  | awaiting_payment
  | awaiting_info
deriving DecidableEq

/-- Embeds `orderState.collectedInfo`. -/
structure CollectedInfo where
  paymentAnalysis : Option String
  email : Option String
  rawText : Option String
deriving DecidableEq

def emptyCollected : CollectedInfo := ⟨none, none, none⟩

/-- One `this.orderStates` entry. -/
structure OrderState where
  state : OrderStateTag
  orderId : Option Nat
  productDetails : Option String
  orderDetails : Option String
  collectedInfo : Option CollectedInfo
deriving DecidableEq

/-- The mutable registries of the manager: `this.sessions` and `this.orderStates`. -/
structure ManagerState where
  sessions : List (String × SessionInfo)
  orderStates : List (String × OrderState)
deriving DecidableEq

/-- The order-state key `` `${tenantId}_${customerPhone}` `` (a null tenant id
stringifies to "null" in JavaScript). -/
def tenantKey (tid : Option Nat) (phone : String) : String :=
  (match tid with | some n => toString n | none => "null") ++ "_" ++ phone

/-- One `getAllSessions()` row. -/
structure SessionSummary where
  userId : String
  isReady : Bool
  hasQR : Bool
deriving DecidableEq

def getAllSessions (st : ManagerState) : List SessionSummary :=
  st.sessions.map (fun p => ⟨p.1, p.2.isReady, p.2.qrCode.isSome⟩)

/-! ### Purchase-intent, price and file-request heuristics -/

def excludeKeywords : List String :=
  ["voir", "savoir", "nchouf", "nشوف", "afficher", "show", "list",
   "toute", "tous", "كاملين", "kamlin", "koulchi", "كلشي",
   "disponible", "متاح", "available", "quoi", "what", "شنو", "أش"]

def simpleConfirmations : List String :=
  ["yes", "yeah", "yep", "ok", "okay",
   "oui", "d\x27accord", "dacor", "dac",
   "نعم", "أيوا", "واخا", "safi", "wa5a", "waka"]

def strongPurchaseKeywords : List String :=
  ["i want to buy", "i\x27ll buy", "i\x27ll take it", "i confirm", "place order", "i want it",
   "je veux acheter", "je vais acheter", "je prends", "je confirme", "passer commande", "je le veux",
   "بغيت نشري", "غادي نشري", "خذيت", "تأكيد الطلب", "أريده",
   "bghit nechri", "ghadi nechri", "nakhed", "na9bel", "bghito"]

/-- Embeds `detectPurchaseIntent(message, aiResponse)`. -/
def detectPurchaseIntent (message aiResponse : String) : Bool :=
  if message = "" then false
  else
    let lower := jsNorm message
    if excludeKeywords.any (fun kw => jsIncludes lower kw) then false
    else
      let aiMentionsProduct := aiResponse ≠ "" ∧
        (jsIncludes aiResponse "DH" ∨ jsIncludes aiResponse "درهم" ∨
         jsIncludes aiResponse "price" ∨ jsIncludes aiResponse "سعر")
      if simpleConfirmations.contains lower ∧ aiMentionsProduct then true
      else strongPurchaseKeywords.any (fun kw => jsIncludes lower kw)

/-- Whether the character list starts with "DH" (case-insensitively) or
"درهم", the alternation closing the price regex. -/
def dhStart (l : List Char) : Bool :=
  (match l with
   | c1 :: c2 :: _ => c1.toLower = 'd' && c2.toLower = 'h'
   | _ => false) ||
  (['د', 'ر', 'ه', 'م'].isPrefixOf l)

/-- One attempt of the regex `(\d+[\d,]*)\s*(DH|درهم)/i` at the current
position; the character classes are disjoint from the closing literal, so
greedy maximal munch is exact. -/
def priceAt (l : List Char) : Option String :=
  match l with
  | [] => none
  | c :: _ =>
      if c.isDigit then
        let run := l.takeWhile (fun ch => ch.isDigit || ch = ',')
        let rest := (l.drop run.length).dropWhile Char.isWhitespace
        if dhStart rest then some run.asString else none
      else none

/-- Leftmost price match. -/
def priceScan : List Char → Option String
  | [] => none
  | c :: cs =>
      match priceAt (c :: cs) with
      | some p => some p
      | none => priceScan cs

def firstPriceMatch (s : String) : Option String :=
  priceScan s.data

/-- Embeds `buildOrderConfirmationMessage(productDetails)`: the explicit confirmation
template, with the extracted price or "---". -/
def buildOrderConfirmationMessage (productDetails : String) : String :=
  let price := (firstPriceMatch productDetails).getD "---"
  "\n🛒 *CONFIRMER VOTRE COMMANDE?*\n━━━━━━━━━━━━━━━━━━━━\n\n📦 "
    ++ jsTake productDetails 150
    ++ (if productDetails.data.length > 150 then "..." else "")
    ++ "\n\n💰 Prix: " ++ price
    ++ " DH\n🚚 Livraison: Selon votre ville\n\n━━━━━━━━━━━━━━━━━━━━\n⚠️ Pour confirmer et commander, répondez:\n\n✅ \"CONFIRMER\" ou \"تأكيد\"\n\n❌ Pour annuler, ignorez ce message.\n"

def isWordChar (c : Char) : Bool :=
  c.isAlphanum || c = '_'

def isEmailChar (c : Char) : Bool :=
  isWordChar c || c = '.' || c = '-'

/-- Rightmost dot inside the post-`@` run that is preceded by at least one
character and followed by a word character — the split the backtracking of
`[\w.-]+\.\w+` settles on. -/
def emailDotSplit (r2 : List Char) : Option Nat :=
  (List.range r2.length).reverse.find? (fun m =>
    decide (1 ≤ m) && (r2.get? m == some '.') &&
      (match r2.get? (m + 1) with | some c => isWordChar c | none => false))

/-- One attempt of `[\w.-]+@[\w.-]+\.\w+` anchored at the current position. -/
def emailAt (l : List Char) : Option String :=
  let r1 := l.takeWhile isEmailChar
  if r1.isEmpty then none
  else
    match l.drop r1.length with
    | '@' :: rest =>
        let r2 := rest.takeWhile isEmailChar
        (emailDotSplit r2).map (fun m =>
          (r1 ++ ['@'] ++ r2.take m ++ ['.'] ++ (r2.drop (m + 1)).takeWhile isWordChar).asString)
    | _ => none

def emailScan : List Char → Option String
  | [] => none
  | c :: cs =>
      match emailAt (c :: cs) with
      | some e => some e
      | none => emailScan cs

/-- First match of the email pattern in the info message of the customer. -/
def jsEmailMatch (s : String) : Option String :=
  emailScan s.data

def fileKeywords : List String :=
  ["catalog", "catalogue", "كتالوج", "كاتالوج",
   "price", "prix", "سعر", "أسعار", "ثمن",
   "menu", "قائمة", "منيو",
   "pdf", "image", "photo", "صورة",
   "send", "show", "أرسل", "أعطني", "وريني",
   "list", "قائمة", "ليست"]

def generalKeys : List String :=
  ["catalog", "catalogue", "كتالوج", "price", "prix", "menu"]

def catalogLabelKeys : List String :=
  ["catalog", "catalogue", "كتالوج", "price", "prix"]

/-- Keep `\w`, `\s` and the U+0600–U+06FF block; everything else becomes a
space (the `replace` in `detectFileRequest`). -/
def jsKeepChar (c : Char) : Bool :=
  isWordChar c || c.isWhitespace || (decide (0x600 ≤ c.toNat) && decide (c.toNat ≤ 0x6FF))

/-- Whitespace-separated fields of a character list (the non-empty pieces of
a split on `\s+`). -/
def wsFieldsAux : List Char → List Char → List String
  | [], acc => if acc.isEmpty then [] else [String.mk acc.reverse]
  | c :: cs, acc =>
      if c.isWhitespace then
        if acc.isEmpty then wsFieldsAux cs []
        else String.mk acc.reverse :: wsFieldsAux cs []
      else wsFieldsAux cs (c :: acc)

/-- Cleaned words of length > 2 used for label matching. -/
def wordsOf (s : String) : List String :=
  (wsFieldsAux (s.data.map (fun c => if jsKeepChar c then c else ' ')) []).filter
    (fun w => w.data.length > 2)

/-- The strict best-match fold over the files of the tenant (at least half the
label words must appear in the message, and the score must beat the running
best). -/
def pickBest (messageWords : List String) (files : List TFile) : Option TFile :=
  (files.foldl (fun best f =>
      let lw := wordsOf (jsLower f.file_label)
      let score := lw.countP (fun w =>
        messageWords.any (fun mw => mw = w || jsIncludes mw w))
      if 0 < lw.length ∧ lw.length ≤ 2 * score ∧ best.2 < score then (some f, score)
      else best)
    ((none : Option TFile), 0)).1

/-- Embeds `detectFileRequest(message, tenantId)`: keyword gate, strict label match,
then the general-catalog fallback.  A falsy tenant id (null or 0) or empty
message short-circuits; a database failure is caught and yields null. -/
def detectFileRequest (message : String) (tid : Option Nat) (env : Env) : Option TFile :=
  if tid = none ∨ tid = some 0 ∨ message = "" then none
  else
    let lowerMessage := jsLower message
    if fileKeywords.any (fun kw => jsIncludes lowerMessage kw) then
      if env.dbFilesOk then
        if env.tenantFiles.isEmpty then none
        else
          match pickBest (wordsOf lowerMessage) env.tenantFiles with
          | some f => some f
          | none =>
              if fileKeywords.any (fun kw =>
                  generalKeys.contains kw && jsIncludes lowerMessage kw) then
                env.tenantFiles.find? (fun f =>
                  catalogLabelKeys.any (fun k => jsIncludes (jsLower f.file_label) k))
              else none
      else none
    else none

/-! ### Order flow state machine (`handleOrderFlow`, `initiateOrderFlow`) -/

def confirmKeywords : List String :=
  ["confirmer", "confirm", "confirmo", "تأكيد", "أكد",
   "oui je confirme", "yes confirm", "نعم أؤكد"]

def paymentConfirmWords : List String :=
  ["fait", "virement", "payé", "envoyé", "transféré",
   "done", "paid", "sent", "transferred",
   "تم", "دفعت", "حولت"]

def promptReconfirm : String :=
  "Pour commander, veuillez répondre \"CONFIRMER\" ou \"تأكيد\""

def supportMsg : String :=
  "Sorry, there was an error processing your order. Please contact support."

def cantProcessMsg : String :=
  "Sorry, I couldn\x27t process your order. Please try again later."

def paymentCaption : String :=
  "💳 Perfect! Here\x27s our payment information. Please send your payment proof after completing the transaction."

def provideInfoMsg : String :=
  "Great! To complete your order, please provide:\n\n1. Your full name\n2. Delivery address\n3. Email (optional)"

def parfaitMsg : String :=
  "✅ Parfait! Pour finaliser, merci d\x27envoyer une capture d\x27écran ou photo du reçu de virement (confirmation bancaire)."

def askProofMsg : String :=
  "💳 Merci d\x27envoyer une capture d\x27écran ou photo de votre preuve de paiement (reçu de virement bancaire)."

def paymentReceivedMsg (pa : String) : String :=
  "✅ Preuve de paiement reçue et vérifiée!\n\n📋 " ++ pa ++
  "\n\n✏️ Maintenant, merci de fournir:\n\n1. Votre nom complet\n2. Adresse de livraison\n3. Email (optionnel)\n\nVous pouvez envoyer toutes les infos en un seul message."

def provideFullInfoMsg : String :=
  "Merci de fournir vos informations complètes:\n1. Nom complet\n2. Adresse de livraison\n3. Email (optionnel)"

def merciMsg : String :=
  "✅ Merci! Votre commande a été reçue et sera traitée rapidement. Nous vous contacterons bientôt!"

def enregistreeMsg : String :=
  "✅ Votre commande est enregistrée! Le propriétaire sera notifié."

def errApology : String :=
  "Sorry, I encountered an error. Please try again."

/-- Result of one `handleOrderFlow` invocation: the order-state map after it,
the messages sent to the customer, `ret` (the returned boolean, or `none`
when an exception escaped), and whether the surrounding `catch` fired. -/
structure FlowResult where
  orderStates : List (String × OrderState)
  sent : List String
  ret : Option Bool
  caught : Bool
deriving DecidableEq

/-- The `catch` at the bottom of `handleOrderFlow`: send the support apology,
then drop the state entry of the customer.  If that send itself throws, the
deletion never happens and the exception escapes (`ret = none`). -/
def flowCatch (om : List (String × OrderState)) (sent : List String)
    (key : String) (env : Env) : FlowResult :=
  if env.sendOk then ⟨mapDel om key, sent ++ [supportMsg], some false, true⟩
  else ⟨om, sent, none, true⟩

/-- Embeds `initiateOrderFlow`: create the order, then either send the payment
screenshot and move to `awaiting_payment`, or (no payment file) ask for the
delivery info and move straight to `awaiting_info`.  Its own `catch` sends an
error message and leaves the state as it stands.  Returns the new map, the
sends, and whether an exception escaped even the catch. -/
def initiateOrderFlow (om : List (String × OrderState)) (key : String)
    (orderDetails : Option String) (env : Env) :
    List (String × OrderState) × List String × Bool :=
  match env.createOrderId with
  | none =>
      if env.sendOk then (om, [cantProcessMsg], false) else (om, [], true)
  | some oid =>
      match env.paymentFile with
      | some _ =>
          if env.mediaFromUrlOk && env.sendOk then
            let om1 := mapSet om key ⟨.awaiting_payment, some oid, none, orderDetails, none⟩
            if env.updateOrderOk then (om1, [paymentCaption], false)
            else (om1, [paymentCaption, cantProcessMsg], false)
          else if env.sendOk then (om, [cantProcessMsg], false)
          else (om, [], true)
      | none =>
          if env.sendOk then
            let om1 := mapSet om key ⟨.awaiting_info, some oid, none, orderDetails, some emptyCollected⟩
            if env.updateOrderOk then (om1, [provideInfoMsg], false)
            else (om1, [provideInfoMsg, cantProcessMsg], false)
          else (om, [], true)

/-- The inner `catch (forwardError)` of the `awaiting_info` branch: send the
fallback acknowledgement, still complete the order and drop the entry; any
throw inside it falls to the outer catch. -/
def infoForwardCatch (om : List (String × OrderState)) (sent : List String)
    (key : String) (env : Env) : FlowResult :=
  if env.sendOk then
    if env.completeOrderOk then ⟨mapDel om key, sent ++ [enregistreeMsg], some true, false⟩
    else flowCatch om (sent ++ [enregistreeMsg]) key env
  else flowCatch om sent key env

/-- The forward/thank/complete/delete tail of the `awaiting_info` branch. -/
def awaitingInfoFinish (om : List (String × OrderState)) (key : String)
    (env : Env) : FlowResult :=
  if env.forwardOk then
    if env.sendOk then
      if env.completeOrderOk then ⟨mapDel om key, [merciMsg], some true, false⟩
      else infoForwardCatch om [merciMsg] key env
    else infoForwardCatch om [] key env
  else infoForwardCatch om [] key env

/-- Embeds `handleOrderFlow(orderState, message, chat, tenantId, customerPhone,
userId)`. -/
def handleOrderFlow (st : ManagerState) (os : OrderState) (msg : Msg)
    (tid : Option Nat) (phone uid : String) (env : Env) : FlowResult :=
  let key := tenantKey tid phone
  let om := st.orderStates
  let messageText := jsNorm msg.body
  match os.state with
  | .awaiting_order_confirmation =>
      if confirmKeywords.any (fun kw => jsIncludes messageText kw) then
        let r := initiateOrderFlow om key os.productDetails env
        if r.2.2 then flowCatch r.1 r.2.1 key env
        else ⟨r.1, r.2.1, some true, false⟩
      else
        if env.sendOk then ⟨om, [promptReconfirm], some true, false⟩
        else flowCatch om [] key env
  | .awaiting_payment =>
      if msg.hasMedia then
        if env.downloadOk then
          match msg.media with
          | some m =>
              if jsStartsWith m.mimetype "image/" then
                match mapGet st.sessions uid with
                | some _ =>
                    let paymentAnalysis := aiReply env.visionOutcome
                    if env.uploadOk then
                      if env.updateOrderOk then
                        if env.sendOk then
                          let os1 : OrderState :=
                            { os with
                              state := OrderStateTag.awaiting_info,
                              collectedInfo := some { emptyCollected with
                                paymentAnalysis := some paymentAnalysis } }
                          ⟨mapSet om key os1, [paymentReceivedMsg paymentAnalysis], some true, false⟩
                        else flowCatch om [] key env
                      else flowCatch om [] key env
                    else flowCatch om [] key env
                | none => flowCatch om [] key env
              else
                if env.sendOk then ⟨om, [askProofMsg], some true, false⟩
                else flowCatch om [] key env
          | none =>
              if env.sendOk then ⟨om, [askProofMsg], some true, false⟩
              else flowCatch om [] key env
        else flowCatch om [] key env
      else if paymentConfirmWords.any (fun w => jsIncludes messageText w) then
        if env.sendOk then ⟨om, [parfaitMsg], some true, false⟩
        else flowCatch om [] key env
      else
        if env.sendOk then ⟨om, [askProofMsg], some true, false⟩
        else flowCatch om [] key env
  | .awaiting_info =>
      if (jsTrim msg.body).data.length < 5 then
        if env.sendOk then ⟨om, [provideFullInfoMsg], some true, false⟩
        else flowCatch om [] key env
      else
        match os.collectedInfo with
        | none => flowCatch om [] key env
        | some ci =>
            let email1 : Option String :=
              match jsEmailMatch msg.body with
              | some e => some e
              | none => ci.email
            let ci1 : CollectedInfo := { ci with rawText := some msg.body, email := email1 }
            let om1 := mapSet om key { os with collectedInfo := some ci1 }
            if env.updateOrderOk then awaitingInfoFinish om1 key env
            else flowCatch om1 [] key env

/-! ### Message pipeline (`handleMessage`) and transport event handlers -/

/-- The outer `catch` of `handleMessage`: a guarded apology reply and an
error event; it never rethrows. -/
def hmCatch (st : ManagerState) (sent : List String) (env : Env) :
    ManagerState × List String × Bool :=
  if env.sendOk then (st, sent ++ [errApology], false) else (st, sent, false)

def fileCaption (f : TFile) : String :=
  "Here\x27s " ++ f.file_label

/-- The AI tail of `handleMessage`: generate a reply, branch on purchase
intent (reply + confirmation message + new order state) or reply plainly. -/
def handleMessageAI (st1 : ManagerState) (sent0 : List String) (key : String)
    (msg : Msg) (env : Env) : ManagerState × List String × Bool :=
  let aiResponse := aiReply env.aiOutcome
  if detectPurchaseIntent msg.body aiResponse then
    if env.sendOk then
      (⟨st1.sessions, mapSet st1.orderStates key
          ⟨.awaiting_order_confirmation, none, some aiResponse, none, none⟩⟩,
       sent0 ++ [aiResponse, buildOrderConfirmationMessage aiResponse], false)
    else hmCatch st1 sent0 env
  else
    if env.sendOk then (st1, sent0 ++ [aiResponse], false)
    else hmCatch st1 sent0 env

/-- The pipeline after the order-flow gate: media download errors are
swallowed, then the typing indicator, the file-request branch (its errors
fall through to the AI), and the AI tail. -/
def handleMessageRest (st1 : ManagerState) (sent0 : List String)
    (key : String) (tid : Option Nat) (msg : Msg) (env : Env) :
    ManagerState × List String × Bool :=
  if env.typingOk then
    match detectFileRequest msg.body tid env with
    | some f =>
        if env.mediaFromUrlOk && env.sendOk then (st1, sent0 ++ [fileCaption f], false)
        else handleMessageAI st1 sent0 key msg env
    | none => handleMessageAI st1 sent0 key msg env
  else hmCatch st1 sent0 env

/-- Embeds `handleMessage(userId, message)`.  The third component records whether an
exception escaped the handler (never, by the outer catch). -/
def handleMessage (st : ManagerState) (uid : String) (msg : Msg) (env : Env) :
    ManagerState × List String × Bool :=
  if msg.sender = "status@broadcast" ∨ msg.fromMe then (st, [], false)
  else if env.getChatOk then
    match mapGet st.sessions uid with
    | none => hmCatch st [] env
    | some si =>
        let key := tenantKey si.tenantId msg.sender
        match mapGet st.orderStates key with
        | some os =>
            let fr := handleOrderFlow st os msg si.tenantId msg.sender uid env
            let st1 : ManagerState := ⟨st.sessions, fr.orderStates⟩
            match fr.ret with
            | none => hmCatch st1 fr.sent env
            | some true => (st1, fr.sent, false)
            | some false => handleMessageRest st1 fr.sent key si.tenantId msg env
        | none => handleMessageRest st [] key si.tenantId msg env
  else hmCatch st [] env

/-- The transport events wired in `setupEventHandlers` that the teardown property of the spec ranges over. -/
inductive TransportEvent where
  | qr (qrOk : Bool) (dataUrl : String)
  | ready
  | message (msg : Msg) (env : Env)
  | disconnected (reason : String)
  | authenticated
deriving DecidableEq

/-- Dispatch of one transport event callback for session `uid`: returns the
new manager state, the emitted/sent log, and whether the handler threw. -/
def applyEvent (st : ManagerState) (uid : String) :
    TransportEvent → ManagerState × List String × Bool
  | .qr qrOk dataUrl =>
      if qrOk then
        match mapGet st.sessions uid with
        | some si =>
            (⟨mapSet st.sessions uid { si with qrCode := some dataUrl }, st.orderStates⟩,
             ["qr"], false)
        | none => (st, ["qr"], false)
      else (st, [], false)
  | .ready =>
      match mapGet st.sessions uid with
      | some si =>
          (⟨mapSet st.sessions uid { si with isReady := true, qrCode := none },
            st.orderStates⟩, ["ready"], false)
      | none => (st, ["ready"], false)
  | .message msg env => handleMessage st uid msg env
  | .disconnected _ =>
      (⟨mapDel st.sessions uid, st.orderStates⟩, ["disconnected"], false)
  | .authenticated => (st, ["authenticated"], false)

/-! ### Session lifecycle (`createSession`, `initializeWithRetry`,
`stopSession`, `clearSession`) -/

/-- Embeds `stopSession(userId)`: `NotFound` when absent; otherwise destroy the
client (errors swallowed), delete the record, emit `sessionStopped`. -/
def stopSession (st : ManagerState) (uid : String) :
    Except String (ManagerState × List String) :=
  match mapGet st.sessions uid with
  | none => .error "Session not found"
  | some _ => .ok (⟨mapDel st.sessions uid, st.orderStates⟩, ["sessionStopped"])

/-- Embeds `createSession(userId, config)`: `AlreadyExists` guard, then register the
record (not ready, no QR) and return without awaiting initialization. -/
def createSession (st : ManagerState) (uid : String) (tid : Option Nat) :
    Except String ManagerState :=
  if (mapGet st.sessions uid).isSome then .error "Session already exists for this user"
  else .ok ⟨mapSet st.sessions uid ⟨false, none, tid⟩, st.orderStates⟩

/-- The retry loop of `initializeWithRetry`, fuelled by the remaining
iterations of `while (attempt < maxRetries)`.  `succ n` says whether attempt
number `n` resolves.  Returns the registry, the number of failure events
emitted, and the waits slept between attempts. -/
def initializeWithRetryAux (succ : Nat → Bool) (uid : String)
    (st : ManagerState) (maxRetries : Nat) :
    Nat → Nat → ManagerState × Nat × List Nat
  | 0, _ => (st, 0, [])
  | fuel + 1, attempt =>
      let a := attempt + 1
      if succ a then (st, 0, [])
      else if maxRetries ≤ a then (⟨mapDel st.sessions uid, st.orderStates⟩, 1, [])
      else
        let r := initializeWithRetryAux succ uid st maxRetries fuel a
        (r.1, r.2.1, 2000 * a :: r.2.2)

def initializeWithRetry (succ : Nat → Bool) (uid : String) (st : ManagerState)
    (maxRetries : Nat) : ManagerState × Nat × List Nat :=
  initializeWithRetryAux succ uid st maxRetries maxRetries 0

/-- Saved-auth directory name used by `clearSession` (`path.join(cwd,
'.wwebjs_auth', 'session-user_' + userId)`, relative to the working dir). -/
def authPath (uid : String) : String :=
  ".wwebjs_auth/session-user_" ++ uid

/-- Manager state plus the persisted auth directories on disk. -/
structure FullState where
  mgr : ManagerState
  authDirs : List String
deriving DecidableEq

structure ClearResult where
  state : FullState
  emitted : List String
  threw : Bool
  notFoundLogged : Bool
deriving DecidableEq

/-- Embeds `clearSession(userId)`: stop first when running, then `fs.rm(path,
recursive, force)` — with `force` a missing directory is not an error — and
emit `sessionCleared`.  `rmErr` is the error code if the removal throws; the
inner catch swallows it and logs its (inverted) not-found message only for
codes other than ENOENT. -/
def clearSession (s : FullState) (uid : String) (rmErr : Option String) : ClearResult :=
  let running := (mapGet s.mgr.sessions uid).isSome
  let s1 : FullState :=
    if running then ⟨⟨mapDel s.mgr.sessions uid, s.mgr.orderStates⟩, s.authDirs⟩ else s
  let stopEvents := if running then ["sessionStopped"] else []
  match rmErr with
  | none =>
      ⟨⟨s1.mgr, s1.authDirs.filter (fun p => p ≠ authPath uid)⟩,
       stopEvents ++ ["sessionCleared"], false, false⟩
  | some code =>
      ⟨s1, stopEvents ++ ["sessionCleared"], false, code != "ENOENT"⟩

/-! ### Rate limiter (`middleware/rateLimiter.js`) -/

/-- One `requestCounts` entry. -/
structure UserLimit where
  count : Nat
  resetTime : Nat
  blocked : Bool
  blockedUntil : Nat
deriving DecidableEq

/-- The whole state of the limiter: per-sender map plus the global window. -/
structure RLState where
  requestCounts : List (String × UserLimit)
  globalCount : Nat
  globalResetTime : Nat
deriving DecidableEq

def perUserRequests : Nat := 100
def perUserWindow : Nat := 60000
def perUserBlockDuration : Nat := 300000
def globalRequests : Nat := 1000
def globalWindow : Nat := 60000

/-- Embeds `Math.ceil(a / b)` on the nonnegative quantities the limiter divides. -/
def ceilDiv (a b : Nat) : Nat :=
  (a + b - 1) / b

/-- The return object of `checkLimit`. -/
inductive CheckResult where
  | allowedRes (remaining resetIn : Nat)
  | rejected (retryAfter : Nat) (reason : String)
deriving DecidableEq

def CheckResult.allowed : CheckResult → Bool
  | .allowedRes _ _ => true
  | .rejected _ _ => false

def CheckResult.retryAfterOf : CheckResult → Nat
  | .allowedRes _ _ => 0
  | .rejected r _ => r

/-- A freshly initialized (or window-expired and reset) per-sender entry. -/
def freshLimit (now : Nat) : UserLimit :=
  ⟨0, now + perUserWindow, false, 0⟩

/-- The tail of `checkLimit` after the blocked check: threshold test (block
the sender for the cooldown) or admission (increment both counters). -/
def finishCheck (st : RLState) (userId : String) (now gCount gReset : Nat)
    (ul1 : UserLimit) : RLState × CheckResult :=
  if perUserRequests ≤ ul1.count then
    let ul2 : UserLimit := { ul1 with blocked := true, blockedUntil := now + perUserBlockDuration }
    (⟨mapSet st.requestCounts userId ul2, gCount, gReset⟩,
     .rejected (ceilDiv perUserBlockDuration 1000) "Too many messages. Please wait 5 minutes.")
  else
    let ul2 : UserLimit := { ul1 with count := ul1.count + 1 }
    (⟨mapSet st.requestCounts userId ul2, gCount + 1, gReset⟩,
     .allowedRes (perUserRequests - ul2.count) (ceilDiv (ul1.resetTime - now) 1000))

/-- Embeds `RateLimiter.checkLimit(userId)` at time `now`: global window reset and
threshold, per-sender block check, per-sender window reset, then
`finishCheck`. -/
def checkLimit (st : RLState) (userId : String) (now : Nat) : RLState × CheckResult :=
  let gCount := if st.globalResetTime < now then 0 else st.globalCount
  let gReset := if st.globalResetTime < now then now + globalWindow else st.globalResetTime
  if globalRequests ≤ gCount then
    (⟨st.requestCounts, gCount, gReset⟩,
     .rejected (ceilDiv (gReset - now) 1000) "Global rate limit exceeded. System is at capacity.")
  else
    match mapGet st.requestCounts userId with
    | some ul =>
        if ul.blocked && decide (now < ul.blockedUntil) then
          (⟨st.requestCounts, gCount, gReset⟩,
           .rejected (ceilDiv (ul.blockedUntil - now) 1000)
             "Rate limit exceeded. Please wait before sending more messages.")
        else
          finishCheck st userId now gCount gReset
            (if ul.resetTime < now then freshLimit now else ul)
    | none => finishCheck st userId now gCount gReset (freshLimit now)

/-- A run of `checkLimit` calls by one sender at the given times. -/
def runCalls (userId : String) : RLState → List Nat → RLState × List CheckResult
  | st, [] => (st, [])
  | st, t :: ts =>
      let r := checkLimit st userId t
      let rest := runCalls userId r.1 ts
      (rest.1, r.2 :: rest.2)

/-! ### Idle-reclamation sweep -/

/-- Modelled from the spec: the background idle-reclamation sweep of the
session manager (spec §4.1 "Idle reclamation" and the testable idle-sweep
scenario) is documented (the `cleanupConfig` of PERFORMANCE.md) but its code is
not among the provided source files, so the sweep is modelled from the words of the spec: on a fixed interval, remove every session whose inactivity
exceeds the threshold, whose age exceeds the maximum, or which never became
ready within the grace period. -/
structure CleanupConfig where
  inactiveTimeout : Nat
  checkInterval : Nat
  maxSessionAge : Nat
  readyGracePeriod : Nat
deriving DecidableEq

/-- Modelled from the spec: the per-session bookkeeping the sweep consults
(last-activity and creation timestamps, readiness). -/
structure SweepSession where
  lastActivity : Nat
  createdAt : Nat
  isReady : Bool
deriving DecidableEq

/-- Modelled from the spec: the reclamation criterion — inactivity beyond the
threshold, total age beyond the maximum, or still not ready past the grace
period. -/
def shouldReclaim (cfg : CleanupConfig) (now : Nat) (s : SweepSession) : Bool :=
  decide (cfg.inactiveTimeout < now - s.lastActivity) ||
  decide (cfg.maxSessionAge < now - s.createdAt) ||
  (!s.isReady && decide (cfg.readyGracePeriod < now - s.createdAt))

/-- Modelled from the spec: one sweep tick at time `now` removes exactly the
sessions meeting the criterion (each removal acting on the registry like an
explicit stop). -/
def sweepOnce (cfg : CleanupConfig) (now : Nat)
    (reg : List (String × SweepSession)) : List (String × SweepSession) :=
  reg.filter (fun p => !shouldReclaim cfg now p.2)

/-- Modelled from the spec: the time of the `k`-th sweep tick (`k ≥ 1`) for a
sweep started at `t0` with a fixed interval. -/
def tickAt (cfg : CleanupConfig) (t0 k : Nat) : Nat :=
  t0 + k * cfg.checkInterval

/-- Modelled from the spec: the registry after the first `k` sweep ticks. -/
def runSweeps (cfg : CleanupConfig) (t0 : Nat) :
    Nat → List (String × SweepSession) → List (String × SweepSession)
  | 0, reg => reg
  | k + 1, reg => sweepOnce cfg (tickAt cfg t0 (k + 1)) (runSweeps cfg t0 k reg)

/-! ### Concrete configurations used to instantiate the theorems -/

def envAllOk : Env :=
  ⟨true, true, true, true, true, true, true, true, true, true,
   some 1, [], none, AIOutcome.success "Montant: 150 DH, 06/12 14:30",
   AIOutcome.success "Bonjour"⟩

def siReady : SessionInfo := ⟨true, none, some 1⟩

def osAwaitConfirm : OrderState :=
  ⟨.awaiting_order_confirmation, none, some "Produit 100 DH", none, none⟩

def msgConfirmer : Msg := ⟨"c", false, "CONFIRMER", false, none⟩

def stConfirm : ManagerState := ⟨[("u", siReady)], [("1_c", osAwaitConfirm)]⟩

def osAwaitPayment : OrderState := ⟨.awaiting_payment, some 1, none, some "Produit", none⟩

def imgMedia : Media := ⟨"image/jpeg", "base64data", some "proof.jpg"⟩

def msgImage : Msg := ⟨"c", false, "", true, some imgMedia⟩

def msgPaid : Msg := ⟨"c", false, "virement fait", false, none⟩

def stPayment : ManagerState := ⟨[("u", siReady)], [("1_c", osAwaitPayment)]⟩

def osAwaitInfo : OrderState := ⟨.awaiting_info, some 1, none, none, some emptyCollected⟩

def tfCatalogue : TFile := ⟨"catalogue", "http://files/f.pdf", "f.pdf"⟩

def msgCatalogue : Msg := ⟨"c", false, "catalogue", false, none⟩

def envC10 : Env := { envAllOk with updateOrderOk := false, tenantFiles := [tfCatalogue] }

def envC10b : Env := { envAllOk with updateOrderOk := false }

def stInfo : ManagerState := ⟨[("u", siReady)], [("1_c", osAwaitInfo)]⟩

def fsEmpty : FullState := ⟨⟨[], []⟩, []⟩

def envWithPayment : Env := { envAllOk with paymentFile := some tfCatalogue }

def msgHello : Msg := ⟨"c", false, "bonjour", false, none⟩

def cfgSweep : CleanupConfig := ⟨3600000, 300000, 86400000, 600000⟩

def sweepSess : SweepSession := ⟨0, 0, true⟩

/-- The working invariant of the per-sender rate-limit scenario: after `k`
admitted calls whose first call happened at `t1`, the entry of the sender holds
count `k` in the window ending at `t1 + perUserWindow`, unblocked, and the
global counter is at most the number of calls made. -/
def rlOkState (uid : String) (t1 k : Nat) (st : RLState) : Prop :=
  st.requestCounts = [(uid, ⟨k, t1 + perUserWindow, false, 0⟩)] ∧ st.globalCount ≤ k

/-! ## Association-list lemmas -/

theorem mapGet_mapSet_self {α : Type} (l : List (String × α)) (k : String) (v : α) :
    mapGet (mapSet l k v) k = some v := by
  induction l with
  | nil => simp [mapGet, mapSet]
  | cons p ps ih =>
      by_cases h : k = p.1
      · simp [mapSet, mapGet, h]
      · simp [mapSet, mapGet, h, ih]

theorem mapGet_mapSet_ne {α : Type} (l : List (String × α)) (k k' : String) (v : α)
    (h : k' ≠ k) : mapGet (mapSet l k v) k' = mapGet l k' := by
  induction l with
  | nil => simp [mapGet, mapSet, h]
  | cons p ps ih =>
      by_cases hk : k = p.1
      · subst hk; simp [mapSet, mapGet, h]
      · by_cases hk' : k' = p.1
        · simp [mapSet, mapGet, hk, hk']
        · simp [mapSet, mapGet, hk, hk', ih]

theorem mapGet_mapDel_self {α : Type} (l : List (String × α)) (k : String) :
    mapGet (mapDel l k) k = none := by
  induction l with
  | nil => rfl
  | cons p ps ih =>
      by_cases h : p.1 = k
      · simpa [mapDel, h] using ih
      · have hne : ¬ k = p.1 := fun hh => h hh.symm
        simp [mapDel, h, mapGet, hne, ih]

theorem mapGet_none_keys {α : Type} (l : List (String × α)) (k : String)
    (h : mapGet l k = none) : ∀ p ∈ l, p.1 ≠ k := by
  induction l with
  | nil => intro p hp; cases hp
  | cons q qs ih =>
      intro p hp
      by_cases hq : k = q.1
      · simp [mapGet, hq] at h
      · rcases List.mem_cons.mp hp with rfl | hp
        · exact fun hh => hq hh.symm
        · exact ih (by simpa [mapGet, hq] using h) p hp

theorem mapGet_none_of_not_mem {α : Type} (l : List (String × α)) (k : String)
    (h : k ∉ l.map Prod.fst) : mapGet l k = none := by
  induction l with
  | nil => rfl
  | cons q qs ih =>
      simp only [List.map_cons, List.mem_cons] at h
      push_neg at h
      simp [mapGet, h.1, ih h.2]

theorem mapGet_filter_keep {α : Type} (l : List (String × α)) (k : String) (v : α)
    (p : String × α → Bool) (h : mapGet l k = some v) (hp : p (k, v) = true) :
    mapGet (l.filter p) k = some v := by
  induction l with
  | nil => simp [mapGet] at h
  | cons q qs ih =>
      by_cases hq : k = q.1
      · have hv : q.2 = v := by
          simpa [mapGet, hq] using h
        have hqkv : q = (k, v) := by
          cases q; simp_all
        subst hqkv
        simp [List.filter_cons, hp, mapGet]
      · have h' : mapGet qs k = some v := by simpa [mapGet, hq] using h
        by_cases hpq : p q = true
        · simp [List.filter_cons, hpq, mapGet, hq, ih h']
        · simp [List.filter_cons, hpq, ih h']

theorem mapGet_filter_drop {α : Type} (l : List (String × α)) (k : String) (v : α)
    (p : String × α → Bool) (hnod : (l.map Prod.fst).Nodup)
    (h : mapGet l k = some v) (hp : p (k, v) = false) :
    mapGet (l.filter p) k = none := by
  induction l with
  | nil => simp [mapGet] at h
  | cons q qs ih =>
      simp only [List.map_cons, List.nodup_cons] at hnod
      by_cases hq : k = q.1
      · have hv : q.2 = v := by simpa [mapGet, hq] using h
        have hqkv : q = (k, v) := by cases q; simp_all
        subst hqkv
        have hnone : mapGet (qs.filter p) k = none := by
          apply mapGet_none_of_not_mem
          intro hmem
          rcases List.mem_map.mp hmem with ⟨pr, hpr, hfst⟩
          exact hnod.1 (List.mem_map.mpr ⟨pr, List.mem_of_mem_filter hpr, hfst⟩)
        simp [List.filter_cons, hp, hnone]
      · have h' : mapGet qs k = some v := by simpa [mapGet, hq] using h
        by_cases hpq : p q = true
        · simp [List.filter_cons, hpq, mapGet, hq, ih hnod.2 h']
        · simp [List.filter_cons, hpq, ih hnod.2 h']

/-! ## Conversation-history lemmas -/

theorem pairsHist_append_pair (ps : List (String × String)) (u a : String) :
    pairsHist (ps ++ [(u, a)]) =
      pairsHist ps ++ [⟨Role.user, u⟩, ⟨Role.assistant, a⟩] := by
  induction ps with
  | nil => rfl
  | cons p ps ih => obtain ⟨x, y⟩ := p; simp [pairsHist, ih]

theorem pairsHist_length (ps : List (String × String)) :
    (pairsHist ps).length = 2 * ps.length := by
  induction ps with
  | nil => rfl
  | cons p ps ih => obtain ⟨x, y⟩ := p; simp [pairsHist, ih]; omega

theorem pairs_last_not_user (ps : List (String × String)) :
    ((pairsHist ps).getLast?).map HistMsg.role ≠ some Role.user := by
  induction ps with
  | nil => simp [pairsHist]
  | cons p ps ih =>
      obtain ⟨u, a⟩ := p
      cases ps with
      | nil => simp [pairsHist]
      | cons q qs =>
          obtain ⟨u2, a2⟩ := q
          simp only [pairsHist, List.getLast?_cons_cons] at ih ⊢
          exact ih

theorem fixAlt_pairs (ps : List (String × String)) :
    fixAlt (pairsHist ps) = pairsHist ps := by
  unfold fixAlt
  rw [if_neg (pairs_last_not_user ps)]

theorem getLast?_concat_single {α : Type} (l : List α) (a : α) :
    (l ++ [a]).getLast? = some a := by
  induction l with
  | nil => rfl
  | cons x xs ih =>
      cases xs with
      | nil => rfl
      | cons y ys =>
          show (x :: y :: (ys ++ [a])).getLast? = some a
          rw [List.getLast?_cons_cons]
          exact ih

theorem dropLast_concat_single {α : Type} (l : List α) (a : α) :
    (l ++ [a]).dropLast = l := by
  simp

theorem fixAlt_pairs_user (ps : List (String × String)) (u : String) :
    fixAlt (pairsHist ps ++ optUser (some u)) = pairsHist ps := by
  unfold fixAlt optUser
  rw [if_pos, dropLast_concat_single]
  rw [getLast?_concat_single]
  rfl

theorem trimHist_concat (f : List HistMsg) (x : HistMsg) :
    ∃ k, trimHist (f ++ [x]) = f.drop k ++ [x] := by
  unfold trimHist
  by_cases hl : (f ++ [x]).length > maxHistoryLength * 2
  · refine ⟨2, ?_⟩
    rw [if_pos hl]
    have h2 : 2 ≤ f.length := by
      simp [maxHistoryLength] at hl; omega
    rw [List.drop_drop]
    exact List.drop_append_of_le_length h2
  · exact ⟨0, by rw [if_neg hl]; simp⟩

theorem evolve_inv (h : List HistMsg) (m : String) (fd : Option String)
    (o : AIOutcome) (hi : HistInv h) : HistInv (evolveHist h m fd o) := by
  obtain ⟨ps, t, rfl, hlen, hsome⟩ := hi
  have hfix : fixAlt (pairsHist ps ++ optUser t) = pairsHist ps := by
    cases t with
    | none => simpa [optUser] using fixAlt_pairs ps
    | some u => exact fixAlt_pairs_user ps u
  unfold evolveHist
  rw [hfix]
  by_cases hp : ps.length = maxHistoryLength
  · -- nine messages after the user push: the two oldest are evicted
    cases ps with
    | nil => simp [maxHistoryLength] at hp
    | cons p0 ps' =>
        obtain ⟨u0, a0⟩ := p0
        have hlen' : ps'.length = maxHistoryLength - 1 := by
          simp [maxHistoryLength] at hp ⊢; omega
        have htrim :
            trimHist (pairsHist ((u0, a0) :: ps') ++ [⟨Role.user, userContent m fd⟩]) =
              pairsHist ps' ++ [⟨Role.user, userContent m fd⟩] := by
          unfold trimHist
          rw [if_pos]
          · simp [pairsHist]
          · simp [pairsHist_length, maxHistoryLength, hlen']
        rw [htrim]
        cases o with
        | success tx =>
            refine ⟨ps' ++ [(userContent m fd, tx)], none, ?_, ?_, by simp⟩
            · simp [pairsHist_append_pair, optUser]
            · simp [hlen', maxHistoryLength]
        | quotaExceeded =>
            exact ⟨ps', some (userContent m fd), by simp [optUser], by omega,
              fun _ => by omega⟩
        | authError =>
            exact ⟨ps', some (userContent m fd), by simp [optUser], by omega,
              fun _ => by omega⟩
        | otherError =>
            exact ⟨ps', some (userContent m fd), by simp [optUser], by omega,
              fun _ => by omega⟩
  · -- at most seven messages after the push: no eviction
    have hps : ps.length ≤ maxHistoryLength - 1 := by
      simp [maxHistoryLength] at hp hlen ⊢; omega
    have htrim :
        trimHist (pairsHist ps ++ [⟨Role.user, userContent m fd⟩]) =
          pairsHist ps ++ [⟨Role.user, userContent m fd⟩] := by
      unfold trimHist
      rw [if_neg]
      simp [pairsHist_length, maxHistoryLength] at hps ⊢
      omega
    rw [htrim]
    cases o with
    | success tx =>
        refine ⟨ps ++ [(userContent m fd, tx)], none, ?_, ?_, by simp⟩
        · simp [pairsHist_append_pair, optUser]
        · simp [maxHistoryLength] at hps ⊢; omega
    | quotaExceeded =>
        exact ⟨ps, some (userContent m fd), by simp [optUser], hlen, fun _ => hps⟩
    | authError =>
        exact ⟨ps, some (userContent m fd), by simp [optUser], hlen, fun _ => hps⟩
    | otherError =>
        exact ⟨ps, some (userContent m fd), by simp [optUser], hlen, fun _ => hps⟩

theorem histInv_length (h : List HistMsg) (hi : HistInv h) :
    h.length ≤ maxHistoryLength * 2 := by
  obtain ⟨ps, t, rfl, hlen, hsome⟩ := hi
  cases t with
  | none => simp [pairsHist_length, optUser, maxHistoryLength] at *; omega
  | some u =>
      have := hsome rfl
      simp [pairsHist_length, optUser, maxHistoryLength] at *
      omega

theorem roleOk_pairs (ps : List (String × String)) (t : Option String) :
    roleOk true (pairsHist ps ++ optUser t) = true := by
  induction ps with
  | nil => cases t <;> simp [pairsHist, optUser, roleOk]
  | cons p ps ih =>
      obtain ⟨u, a⟩ := p
      simp [pairsHist, roleOk, ih]

theorem histInv_roleOk (h : List HistMsg) (hi : HistInv h) :
    roleOk true h = true := by
  obtain ⟨ps, t, rfl, -, -⟩ := hi
  exact roleOk_pairs ps t

theorem histOf_generateResponse_self (s : AIServiceState) (cid m : String)
    (fd : Option String) (o : AIOutcome) :
    histOf (generateResponse s cid m fd o).1 cid = evolveHist (histOf s cid) m fd o := by
  unfold generateResponse histOf
  rw [mapGet_mapSet_self]
  rfl

theorem histOf_generateResponse_ne (s : AIServiceState) (cid cid' m : String)
    (fd : Option String) (o : AIOutcome) (h : cid' ≠ cid) :
    histOf (generateResponse s cid m fd o).1 cid' = histOf s cid' := by
  unfold generateResponse histOf
  rw [mapGet_mapSet_ne _ _ _ _ h]

theorem runGen_inv (calls : List CallSpec) :
    ∀ s : AIServiceState, (∀ cid, HistInv (histOf s cid)) →
      ∀ cid, HistInv (histOf (runGen s calls) cid) := by
  induction calls with
  | nil => intro s hs cid; exact hs cid
  | cons c cs ih =>
      intro s hs cid
      apply ih
      intro cid'
      by_cases hc : cid' = c.chatId
      · subst hc
        rw [histOf_generateResponse_self]
        exact evolve_inv _ _ _ _ (hs _)
      · rw [histOf_generateResponse_ne _ _ _ _ _ _ hc]
        exact hs cid'

/-- C4: for every conversation id and every sequence of `generateResponse`
calls from a fresh store, the stored history never exceeds
`maxHistoryLength * 2` messages and its roles strictly alternate starting
with a user turn; each call evicts oldest-first (the new history is a
drop-from-the-front of the alternation-fixed old history plus the new
turns); and a trailing user turn is popped before the new user turn is
appended. -/
theorem C4_history_invariant :
    (∀ (calls : List CallSpec) (cid : String),
        (histOf (runGen ⟨[]⟩ calls) cid).length ≤ maxHistoryLength * 2 ∧
        roleOk true (histOf (runGen ⟨[]⟩ calls) cid) = true) ∧
    (∀ (h : List HistMsg) (m : String) (fd : Option String) (o : AIOutcome),
        ∃ k, evolveHist h m fd o =
          (fixAlt h).drop k ++ ⟨Role.user, userContent m fd⟩ ::
            (match o with
             | .success t => [⟨Role.assistant, t⟩]
             | _ => [])) ∧
    (∀ (h : List HistMsg) (mm : HistMsg), h.getLast? = some mm →
        mm.role = Role.user → fixAlt h = h.dropLast) := by
  refine ⟨?_, ?_, ?_⟩
  · intro calls cid
    have hinit : ∀ cid', HistInv (histOf (⟨[]⟩ : AIServiceState) cid') := by
      intro cid'
      exact ⟨[], none, by simp [histOf, mapGet, pairsHist, optUser], by simp, by simp⟩
    have := runGen_inv calls ⟨[]⟩ hinit cid
    exact ⟨histInv_length _ this, histInv_roleOk _ this⟩
  · intro h m fd o
    obtain ⟨k, hk⟩ := trimHist_concat (fixAlt h) ⟨Role.user, userContent m fd⟩
    refine ⟨k, ?_⟩
    unfold evolveHist
    rw [hk]
    cases o <;> simp
  · intro h mm hlast hrole
    unfold fixAlt
    rw [if_pos]
    rw [hlast]
    simp [hrole]

theorem C4_history_invariant_witness :
    ((histOf (runGen ⟨[]⟩ [⟨"c", "hi", none, .success "yo"⟩]) "c").length ≤
        maxHistoryLength * 2) ∧
    (∃ k, evolveHist [] "hi" none (.success "yo") =
        (fixAlt []).drop k ++ ⟨Role.user, userContent "hi" none⟩ ::
          [⟨Role.assistant, "yo"⟩]) ∧
    fixAlt [⟨Role.user, "x"⟩] = [⟨Role.user, "x"⟩].dropLast :=
  ⟨(C4_history_invariant.1 [⟨"c", "hi", none, .success "yo"⟩] "c").1,
   C4_history_invariant.2.1 [] "hi" none (.success "yo"),
   C4_history_invariant.2.2 [⟨Role.user, "x"⟩] ⟨Role.user, "x"⟩ (by simp) rfl⟩

/-- C5 counterexample: a failed `generateResponse` call does not leave the
per-conversation history unchanged — the already-pushed user turn stays in
the store (here a generic transient failure on a fresh conversation leaves
one user message behind). -/
theorem C5_failed_call_changes_history :
    (generateResponse ⟨[]⟩ "c" "hi" none .otherError).1 ≠ (⟨[]⟩ : AIServiceState) := by
  decide

/-- C5 (amended): when the completion backend fails, the caller receives one
of exactly three pairwise-distinct user-facing apology strings selected by
failure kind — never a raw error — and the net effect of the failed call on the
stored history is exactly the appended user turn (with possible
oldest-first trimming), not a rollback to the pre-call state. -/
theorem C5_failure_taxonomy :
    (∀ (s : AIServiceState) (cid m : String) (fd : Option String),
        (generateResponse s cid m fd .quotaExceeded).2 =
          "Sorry, the AI service quota has been exceeded. Please contact the administrator." ∧
        (generateResponse s cid m fd .authError).2 =
          "Sorry, there is a configuration issue. Please contact the administrator." ∧
        (generateResponse s cid m fd .otherError).2 =
          "Sorry, I am having trouble processing your request right now. Please try again later.") ∧
    (aiReply .quotaExceeded ≠ aiReply .authError ∧
     aiReply .quotaExceeded ≠ aiReply .otherError ∧
     aiReply .authError ≠ aiReply .otherError) ∧
    (∀ (s : AIServiceState) (cid m : String) (fd : Option String) (o : AIOutcome),
        o.isFailure = true →
        (generateResponse s cid m fd o).2 ∈
          [aiReply .quotaExceeded, aiReply .authError, aiReply .otherError] ∧
        ∃ k, histOf (generateResponse s cid m fd o).1 cid =
          (fixAlt (histOf s cid)).drop k ++ [⟨Role.user, userContent m fd⟩]) := by
  refine ⟨fun s cid m fd => ⟨rfl, rfl, rfl⟩, by decide, ?_⟩
  intro s cid m fd o ho
  constructor
  · cases o with
    | success t => simp [AIOutcome.isFailure] at ho
    | quotaExceeded => simp [generateResponse]
    | authError => simp [generateResponse]
    | otherError => simp [generateResponse]
  · obtain ⟨k, hk⟩ := trimHist_concat (fixAlt (histOf s cid)) ⟨Role.user, userContent m fd⟩
    refine ⟨k, ?_⟩
    rw [histOf_generateResponse_self]
    unfold evolveHist
    cases o with
    | success t => simp [AIOutcome.isFailure] at ho
    | quotaExceeded => simpa using hk
    | authError => simpa using hk
    | otherError => simpa using hk

theorem C5_failure_taxonomy_witness :
    (generateResponse ⟨[]⟩ "c" "hi" none .otherError).2 ∈
      [aiReply .quotaExceeded, aiReply .authError, aiReply .otherError] ∧
    ∃ k, histOf (generateResponse ⟨[]⟩ "c" "hi" none .otherError).1 "c" =
      (fixAlt (histOf ⟨[]⟩ "c")).drop k ++ [⟨Role.user, userContent "hi" none⟩] :=
  C5_failure_taxonomy.2.2 ⟨[]⟩ "c" "hi" none .otherError rfl

/-! ## Teardown vs. late transport events (C1) -/

theorem handleMessage_absent (st : ManagerState) (uid : String) (msg : Msg)
    (env : Env) (h : mapGet st.sessions uid = none) :
    (handleMessage st uid msg env).1 = st ∧ (handleMessage st uid msg env).2.2 = false := by
  unfold handleMessage hmCatch
  by_cases hb : msg.sender = "status@broadcast" ∨ msg.fromMe = true
  · rw [if_pos hb]
    exact ⟨rfl, rfl⟩
  · rw [if_neg hb]
    by_cases hg : env.getChatOk = true
    · rw [if_pos hg, h]
      by_cases hs : env.sendOk = true
      · rw [if_pos hs]; exact ⟨rfl, rfl⟩
      · rw [if_neg hs]; exact ⟨rfl, rfl⟩
    · rw [if_neg hg]
      by_cases hs : env.sendOk = true
      · rw [if_pos hs]; exact ⟨rfl, rfl⟩
      · rw [if_neg hs]; exact ⟨rfl, rfl⟩

theorem getAllSessions_ne (st : ManagerState) (uid : String)
    (h : mapGet st.sessions uid = none) :
    ∀ r ∈ getAllSessions st, r.userId ≠ uid := by
  intro r hr
  unfold getAllSessions at hr
  rcases List.mem_map.mp hr with ⟨p, hp, rfl⟩
  exact mapGet_none_keys _ _ h p hp

theorem event_preserves_absent (st1 : ManagerState) (uid : String)
    (ev : TransportEvent) (habs : mapGet st1.sessions uid = none) :
    (applyEvent st1 uid ev).2.2 = false ∧
    mapGet (applyEvent st1 uid ev).1.sessions uid = none := by
  cases ev with
  | qr qrOk dataUrl =>
      unfold applyEvent
      by_cases hq : qrOk = true
      · simp [hq, habs]
      · simp [hq, habs]
  | ready =>
      unfold applyEvent
      simp [habs]
  | message msg env =>
      have h2 := handleMessage_absent st1 uid msg env habs
      refine ⟨h2.2, ?_⟩
      show mapGet (handleMessage st1 uid msg env).1.sessions uid = none
      rw [h2.1]
      exact habs
  | disconnected r =>
      exact ⟨rfl, mapGet_mapDel_self _ _⟩
  | authenticated =>
      exact ⟨rfl, habs⟩

/-- C1: after `stopSession(id)` succeeds, any subsequently delivered transport
event callback for that session (qr, ready, message, disconnected,
authenticated) neither makes the session reappear in `getAllSessions` nor
lets an exception escape the handler. -/
theorem C1_stop_then_event_noop (st : ManagerState) (uid : String)
    (ev : TransportEvent) (st1 : ManagerState) (log : List String)
    (hstop : stopSession st uid = .ok (st1, log)) :
    (applyEvent st1 uid ev).2.2 = false ∧
    mapGet (applyEvent st1 uid ev).1.sessions uid = none ∧
    ∀ r ∈ getAllSessions (applyEvent st1 uid ev).1, r.userId ≠ uid := by
  have hdel : st1.sessions = mapDel st.sessions uid := by
    unfold stopSession at hstop
    cases hm : mapGet st.sessions uid with
    | none => rw [hm] at hstop; cases hstop
    | some si => rw [hm] at hstop; cases hstop; rfl
  have habs : mapGet st1.sessions uid = none := by
    rw [hdel]; exact mapGet_mapDel_self _ _
  obtain ⟨h1, h2⟩ := event_preserves_absent st1 uid ev habs
  exact ⟨h1, h2, getAllSessions_ne _ _ h2⟩

theorem C1_stop_then_event_noop_witness :
    (applyEvent ⟨[], [("1_c", osAwaitConfirm)]⟩ "u" .authenticated).2.2 = false ∧
    mapGet (applyEvent ⟨[], [("1_c", osAwaitConfirm)]⟩ "u" .authenticated).1.sessions "u" = none ∧
    ∀ r ∈ getAllSessions (applyEvent ⟨[], [("1_c", osAwaitConfirm)]⟩ "u" .authenticated).1,
        r.userId ≠ "u" :=
  C1_stop_then_event_noop stConfirm "u" .authenticated
    ⟨[], [("1_c", osAwaitConfirm)]⟩ ["sessionStopped"] rfl

/-! ## Order confirmation transition (C2) -/

/-- C2 counterexample: with no tenant payment file on record, a message
containing the literal confirmation token moves the (tenant, customer) state
to `awaiting_info`, not `awaiting_payment`, so the claimed transition target
is wrong for this input. -/
theorem C2_confirmation_counterexample :
    jsIncludes (jsNorm msgConfirmer.body) "confirmer" = true ∧
    envAllOk.paymentFile = none ∧
    (mapGet (handleOrderFlow stConfirm osAwaitConfirm msgConfirmer (some 1) "c" "u"
        envAllOk).orderStates "1_c").map OrderState.state =
      some OrderStateTag.awaiting_info ∧
    (mapGet (handleOrderFlow stConfirm osAwaitConfirm msgConfirmer (some 1) "c" "u"
        envAllOk).orderStates "1_c").map OrderState.state ≠
      some OrderStateTag.awaiting_payment := by
  decide

/-- C2 (amended): in `awaiting_order_confirmation`, a message containing the
literal confirmation token (with order creation and the follow-up sends
succeeding) moves the state to `awaiting_payment` when the tenant has a
payment file on record and directly to `awaiting_info` otherwise; any message
matching no confirmation keyword leaves the state map unchanged and re-sends
the confirmation prompt. -/
theorem C2_confirmation_amended :
    (∀ (st : ManagerState) (os : OrderState) (msg : Msg) (tid : Option Nat)
        (phone uid : String) (env : Env) (oid : Nat),
        os.state = .awaiting_order_confirmation →
        jsIncludes (jsNorm msg.body) "confirmer" = true →
        env.sendOk = true → env.mediaFromUrlOk = true → env.updateOrderOk = true →
        env.createOrderId = some oid →
        (mapGet (handleOrderFlow st os msg tid phone uid env).orderStates
            (tenantKey tid phone)).map OrderState.state =
          some (if env.paymentFile.isSome then OrderStateTag.awaiting_payment
                else OrderStateTag.awaiting_info) ∧
        (handleOrderFlow st os msg tid phone uid env).ret = some true) ∧
    (∀ (st : ManagerState) (os : OrderState) (msg : Msg) (tid : Option Nat)
        (phone uid : String) (env : Env),
        os.state = .awaiting_order_confirmation →
        confirmKeywords.any (fun kw => jsIncludes (jsNorm msg.body) kw) = false →
        env.sendOk = true →
        (handleOrderFlow st os msg tid phone uid env).orderStates = st.orderStates ∧
        (handleOrderFlow st os msg tid phone uid env).sent = [promptReconfirm] ∧
        (handleOrderFlow st os msg tid phone uid env).ret = some true) := by
  constructor
  · intro st os msg tid phone uid env oid hos hconf hsend hmedia hupd hcreate
    have hany : confirmKeywords.any (fun kw => jsIncludes (jsNorm msg.body) kw) = true :=
      List.any_eq_true.mpr ⟨"confirmer", by simp [confirmKeywords], hconf⟩
    cases hpf : env.paymentFile with
    | some pf =>
        simp [handleOrderFlow, initiateOrderFlow, hos, hany, hsend, hmedia, hupd,
          hcreate, hpf, mapGet_mapSet_self]
    | none =>
        simp [handleOrderFlow, initiateOrderFlow, hos, hany, hsend, hmedia, hupd,
          hcreate, hpf, mapGet_mapSet_self]
  · intro st os msg tid phone uid env hos hnone hsend
    simp [handleOrderFlow, hos, hnone, hsend]

theorem C2_confirmation_amended_witness :
    ((mapGet (handleOrderFlow stConfirm osAwaitConfirm msgConfirmer (some 1) "c" "u"
        envWithPayment).orderStates (tenantKey (some 1) "c")).map OrderState.state =
      some (if envWithPayment.paymentFile.isSome then OrderStateTag.awaiting_payment
            else OrderStateTag.awaiting_info) ∧
     (handleOrderFlow stConfirm osAwaitConfirm msgConfirmer (some 1) "c" "u"
        envWithPayment).ret = some true) ∧
    ((handleOrderFlow stConfirm osAwaitConfirm msgHello (some 1) "c" "u"
        envAllOk).orderStates = stConfirm.orderStates ∧
     (handleOrderFlow stConfirm osAwaitConfirm msgHello (some 1) "c" "u"
        envAllOk).sent = [promptReconfirm] ∧
     (handleOrderFlow stConfirm osAwaitConfirm msgHello (some 1) "c" "u"
        envAllOk).ret = some true) :=
  ⟨C2_confirmation_amended.1 stConfirm osAwaitConfirm msgConfirmer (some 1) "c" "u"
      envWithPayment 1 rfl (by decide) rfl rfl rfl rfl,
   C2_confirmation_amended.2 stConfirm osAwaitConfirm msgHello (some 1) "c" "u"
      envAllOk rfl (by decide) rfl⟩

/-! ## Payment-proof transition (C3) -/

/-- C3: in `awaiting_payment`, an image attachment (with the media transfer,
vision call, upload, database updates and sends succeeding, and the vision
backend returning non-empty text) advances the state to `awaiting_info` with
the extracted payment description — exactly the reply of the vision backend —
retained in `collectedInfo.paymentAnalysis` for the handoff summary; a
message with textual payment-confirmation keywords and no media only asks
for proof and leaves the state map unchanged. -/
theorem C3_payment_proof :
    (∀ (st : ManagerState) (os : OrderState) (msg : Msg) (tid : Option Nat)
        (phone uid : String) (env : Env) (m : Media),
        os.state = .awaiting_payment →
        (mapGet st.sessions uid).isSome = true →
        msg.hasMedia = true → env.downloadOk = true →
        msg.media = some m → jsStartsWith m.mimetype "image/" = true →
        env.uploadOk = true → env.updateOrderOk = true → env.sendOk = true →
        aiReply env.visionOutcome ≠ "" →
        (mapGet (handleOrderFlow st os msg tid phone uid env).orderStates
            (tenantKey tid phone)).map OrderState.state =
          some OrderStateTag.awaiting_info ∧
        ((mapGet (handleOrderFlow st os msg tid phone uid env).orderStates
            (tenantKey tid phone)).bind OrderState.collectedInfo).bind
            CollectedInfo.paymentAnalysis = some (aiReply env.visionOutcome) ∧
        aiReply env.visionOutcome ≠ "" ∧
        (handleOrderFlow st os msg tid phone uid env).sent =
          [paymentReceivedMsg (aiReply env.visionOutcome)] ∧
        (handleOrderFlow st os msg tid phone uid env).ret = some true) ∧
    (∀ (st : ManagerState) (os : OrderState) (msg : Msg) (tid : Option Nat)
        (phone uid : String) (env : Env),
        os.state = .awaiting_payment →
        msg.hasMedia = false →
        paymentConfirmWords.any (fun w => jsIncludes (jsNorm msg.body) w) = true →
        env.sendOk = true →
        (handleOrderFlow st os msg tid phone uid env).orderStates = st.orderStates ∧
        (handleOrderFlow st os msg tid phone uid env).sent = [parfaitMsg] ∧
        (handleOrderFlow st os msg tid phone uid env).ret = some true) := by
  constructor
  · intro st os msg tid phone uid env m hos hsi hmed hdl hm himg hup hupd hsend hvis
    cases hsess : mapGet st.sessions uid with
    | none => rw [hsess] at hsi; cases hsi
    | some si =>
        refine ⟨?_, ?_, hvis, ?_, ?_⟩ <;>
          simp [handleOrderFlow, hos, hmed, hdl, hm, himg, hsess, hup, hupd,
            hsend, mapGet_mapSet_self, emptyCollected]
  · intro st os msg tid phone uid env hos hmed hpay hsend
    simp [handleOrderFlow, hos, hmed, hpay, hsend]

theorem C3_payment_proof_witness :
    ((mapGet (handleOrderFlow stPayment osAwaitPayment msgImage (some 1) "c" "u"
        envAllOk).orderStates (tenantKey (some 1) "c")).map OrderState.state =
      some OrderStateTag.awaiting_info ∧
     ((mapGet (handleOrderFlow stPayment osAwaitPayment msgImage (some 1) "c" "u"
        envAllOk).orderStates (tenantKey (some 1) "c")).bind
        OrderState.collectedInfo).bind CollectedInfo.paymentAnalysis =
      some (aiReply envAllOk.visionOutcome) ∧
     aiReply envAllOk.visionOutcome ≠ "" ∧
     (handleOrderFlow stPayment osAwaitPayment msgImage (some 1) "c" "u"
        envAllOk).sent = [paymentReceivedMsg (aiReply envAllOk.visionOutcome)] ∧
     (handleOrderFlow stPayment osAwaitPayment msgImage (some 1) "c" "u"
        envAllOk).ret = some true) ∧
    ((handleOrderFlow stPayment osAwaitPayment msgPaid (some 1) "c" "u"
        envAllOk).orderStates = stPayment.orderStates ∧
     (handleOrderFlow stPayment osAwaitPayment msgPaid (some 1) "c" "u"
        envAllOk).sent = [parfaitMsg] ∧
     (handleOrderFlow stPayment osAwaitPayment msgPaid (some 1) "c" "u"
        envAllOk).ret = some true) :=
  ⟨C3_payment_proof.1 stPayment osAwaitPayment msgImage (some 1) "c" "u" envAllOk
      imgMedia rfl rfl rfl rfl rfl rfl rfl rfl rfl (by decide),
   C3_payment_proof.2 stPayment osAwaitPayment msgPaid (some 1) "c" "u" envAllOk
      rfl rfl (by decide) rfl⟩

/-! ## Rate limiter (C6) -/

theorem checkLimit_admits (uid : String) (t1 k t : Nat) (st : RLState)
    (hok : rlOkState uid t1 k st) (hk : k < perUserRequests)
    (ht : t ≤ t1 + perUserWindow) :
    (checkLimit st uid t).2.allowed = true ∧
    rlOkState uid t1 (k + 1) (checkLimit st uid t).1 := by
  obtain ⟨hrc, hg⟩ := hok
  have h1 : ¬ globalRequests ≤ (if st.globalResetTime < t then 0 else st.globalCount) := by
    simp only [globalRequests, perUserRequests] at hg hk ⊢
    split <;> omega
  have h2 : ¬ (t1 + perUserWindow < t) := by omega
  have h3 : ¬ (perUserRequests ≤ k) := Nat.not_le.mpr hk
  have heq : checkLimit st uid t =
      (⟨[(uid, ⟨k + 1, t1 + perUserWindow, false, 0⟩)],
        (if st.globalResetTime < t then 0 else st.globalCount) + 1,
        if st.globalResetTime < t then t + globalWindow else st.globalResetTime⟩,
       CheckResult.allowedRes (perUserRequests - (k + 1))
         (ceilDiv (t1 + perUserWindow - t) 1000)) := by
    unfold checkLimit finishCheck
    rw [hrc]
    simp [mapGet, mapSet, h1, h2, h3]
  rw [heq]
  refine ⟨rfl, rfl, ?_⟩
  show (if st.globalResetTime < t then 0 else st.globalCount) + 1 ≤ k + 1
  split <;> omega

theorem checkLimit_first (uid : String) (g0 t1 : Nat) :
    (checkLimit ⟨[], 0, g0⟩ uid t1).2.allowed = true ∧
    rlOkState uid t1 1 (checkLimit ⟨[], 0, g0⟩ uid t1).1 := by
  have heq : checkLimit ⟨[], 0, g0⟩ uid t1 =
      (⟨[(uid, ⟨1, t1 + perUserWindow, false, 0⟩)], 1,
        if g0 < t1 then t1 + globalWindow else g0⟩,
       CheckResult.allowedRes (perUserRequests - 1)
         (ceilDiv (t1 + perUserWindow - t1) 1000)) := by
    unfold checkLimit finishCheck
    simp [mapGet, mapSet, freshLimit, globalRequests, perUserRequests]
  rw [heq]
  exact ⟨rfl, rfl, Nat.le_refl 1⟩

theorem runCalls_length (uid : String) (st : RLState) (ts : List Nat) :
    (runCalls uid st ts).2.length = ts.length := by
  induction ts generalizing st with
  | nil => rfl
  | cons t ts ih => simp [runCalls, ih]

theorem runCalls_admits (uid : String) (t1 : Nat) (ts : List Nat) :
    ∀ (k : Nat) (st : RLState),
      rlOkState uid t1 k st → k + ts.length ≤ perUserRequests →
      (∀ t ∈ ts, t ≤ t1 + perUserWindow) →
      (runCalls uid st ts).2.all CheckResult.allowed = true ∧
      rlOkState uid t1 (k + ts.length) (runCalls uid st ts).1 := by
  induction ts with
  | nil =>
      intro k st hok _ _
      exact ⟨rfl, by simpa using hok⟩
  | cons t ts ih =>
      intro k st hok hlen hts
      have hk : k < perUserRequests := by simp at hlen; omega
      obtain ⟨hall, hok1⟩ := checkLimit_admits uid t1 k t st hok hk (hts t (by simp))
      obtain ⟨hall2, hok2⟩ :=
        ih (k + 1) (checkLimit st uid t).1 hok1 (by simp at hlen ⊢; omega)
          (fun x hx => hts x (by simp [hx]))
      constructor
      · simp [runCalls, hall, hall2]
      · have : k + (t :: ts).length = (k + 1) + ts.length := by simp; omega
        rw [this]
        simpa [runCalls] using hok2

theorem checkLimit_rejects (uid : String) (t1 t : Nat) (st : RLState)
    (hok : rlOkState uid t1 perUserRequests st) (ht : t ≤ t1 + perUserWindow) :
    (checkLimit st uid t).2.allowed = false ∧
    (checkLimit st uid t).2.retryAfterOf = ceilDiv perUserBlockDuration 1000 ∧
    mapGet (checkLimit st uid t).1.requestCounts uid =
      some ⟨perUserRequests, t1 + perUserWindow, true, t + perUserBlockDuration⟩ := by
  obtain ⟨hrc, hg⟩ := hok
  have h1 : ¬ globalRequests ≤ (if st.globalResetTime < t then 0 else st.globalCount) := by
    simp only [globalRequests, perUserRequests] at *
    split <;> omega
  have h2 : ¬ (t1 + perUserWindow < t) := by omega
  unfold checkLimit finishCheck
  rw [hrc]
  refine ⟨?_, ?_, ?_⟩
  · simp [h1, h2, mapGet, CheckResult.allowed]
  · simp [h1, h2, mapGet, CheckResult.retryAfterOf]
  · simp [h1, h2, mapGet, mapSet, mapGet_mapSet_self]

/-- C6: from an empty limiter state, a sender's run of exactly the per-sender
threshold of `checkLimit` calls inside one window is fully admitted; the next
call in the same window is rejected with a strictly positive retry-after and
installs a fixed-duration block that outlasts the window boundary; and
whenever the global window counter has reached the global threshold,
`checkLimit` rejects every sender regardless of that sender's own counter. -/
theorem C6_rate_limiter :
    (∀ (uid : String) (g0 t1 t101 : Nat) (ts : List Nat),
        ts.length = perUserRequests - 1 →
        (∀ t ∈ ts, t ≤ t1 + perUserWindow) →
        t1 ≤ t101 → t101 ≤ t1 + perUserWindow →
        ((runCalls uid ⟨[], 0, g0⟩ (t1 :: ts)).2.all CheckResult.allowed = true ∧
         (runCalls uid ⟨[], 0, g0⟩ (t1 :: ts)).2.length = perUserRequests) ∧
        ((checkLimit (runCalls uid ⟨[], 0, g0⟩ (t1 :: ts)).1 uid t101).2.allowed = false ∧
         0 < (checkLimit (runCalls uid ⟨[], 0, g0⟩ (t1 :: ts)).1 uid t101).2.retryAfterOf ∧
         ∃ ul, mapGet (checkLimit (runCalls uid ⟨[], 0, g0⟩ (t1 :: ts)).1 uid
             t101).1.requestCounts uid = some ul ∧
           ul.blocked = true ∧ t1 + perUserWindow < ul.blockedUntil)) ∧
    (∀ (st : RLState) (uid : String) (now : Nat),
        ¬ st.globalResetTime < now → globalRequests ≤ st.globalCount →
        (checkLimit st uid now).2.allowed = false) := by
  constructor
  · intro uid g0 t1 t101 ts hlen hts h1t h2t
    obtain ⟨hall1, hok1⟩ := checkLimit_first uid g0 t1
    obtain ⟨hall2, hok2⟩ :=
      runCalls_admits uid t1 ts 1 (checkLimit ⟨[], 0, g0⟩ uid t1).1 hok1
        (by simp only [hlen, perUserRequests]; omega) hts
    have hok100 : rlOkState uid t1 perUserRequests
        (runCalls uid ⟨[], 0, g0⟩ (t1 :: ts)).1 := by
      have h100 : 1 + ts.length = perUserRequests := by
        simp only [hlen, perUserRequests]
      rw [h100] at hok2
      simpa [runCalls] using hok2
    obtain ⟨hrej, hretry, hentry⟩ :=
      checkLimit_rejects uid t1 t101 (runCalls uid ⟨[], 0, g0⟩ (t1 :: ts)).1 hok100 h2t
    refine ⟨⟨?_, ?_⟩, hrej, ?_, ?_⟩
    · simp only [runCalls, List.all_cons, Bool.and_eq_true, hall1, true_and]
      simpa [runCalls] using hall2
    · simp [runCalls_length, hlen, perUserRequests]
    · rw [hretry]; decide
    · exact ⟨_, hentry, rfl, by
        simp only [perUserWindow, perUserBlockDuration]
        omega⟩
  · intro st uid now hng hge
    simp only [checkLimit]
    rw [if_neg hng, if_neg hng, if_pos hge]
    rfl

theorem C6_rate_limiter_witness :
    (((runCalls "s" ⟨[], 0, 0⟩ ((0 : Nat) :: List.replicate 99 0)).2.all
        CheckResult.allowed = true ∧
      (runCalls "s" ⟨[], 0, 0⟩ ((0 : Nat) :: List.replicate 99 0)).2.length =
        perUserRequests) ∧
     ((checkLimit (runCalls "s" ⟨[], 0, 0⟩ ((0 : Nat) :: List.replicate 99 0)).1 "s"
          0).2.allowed = false ∧
      0 < (checkLimit (runCalls "s" ⟨[], 0, 0⟩ ((0 : Nat) :: List.replicate 99 0)).1 "s"
          0).2.retryAfterOf ∧
      ∃ ul, mapGet (checkLimit (runCalls "s" ⟨[], 0, 0⟩
          ((0 : Nat) :: List.replicate 99 0)).1 "s" 0).1.requestCounts "s" = some ul ∧
        ul.blocked = true ∧ 0 + perUserWindow < ul.blockedUntil)) ∧
    (checkLimit ⟨[], 1000, 100⟩ "s" 50).2.allowed = false :=
  ⟨C6_rate_limiter.1 "s" 0 0 0 (List.replicate 99 0) (by simp [perUserRequests])
      (by
        intro t ht
        rw [List.eq_of_mem_replicate ht]
        exact Nat.zero_le _)
      (Nat.le_refl 0) (Nat.zero_le _),
   C6_rate_limiter.2 ⟨[], 1000, 100⟩ "s" 50 (by decide) (by decide)⟩

/-! ## Initialization retry exhaustion (C7) -/

/-- C7: with a fresh registry entry from `createSession`, an initialization
that fails on every attempt stops after the cap of 3 attempts, sleeping
`2000 × attempt` between attempts, removes the session from the registry, and
emits exactly one structured failure notification. -/
theorem C7_init_retry_exhaustion (st : ManagerState) (uid : String)
    (tid : Option Nat) (succ : Nat → Bool)
    (habs : mapGet st.sessions uid = none) (hfail : ∀ n, succ n = false) :
    createSession st uid tid =
      .ok ⟨mapSet st.sessions uid ⟨false, none, tid⟩, st.orderStates⟩ ∧
    initializeWithRetry succ uid
        ⟨mapSet st.sessions uid ⟨false, none, tid⟩, st.orderStates⟩ 3 =
      (⟨mapDel (mapSet st.sessions uid ⟨false, none, tid⟩) uid, st.orderStates⟩, 1,
       [2000 * 1, 2000 * 2]) ∧
    mapGet (initializeWithRetry succ uid
        ⟨mapSet st.sessions uid ⟨false, none, tid⟩, st.orderStates⟩ 3).1.sessions
      uid = none := by
  have h2 : initializeWithRetry succ uid
      ⟨mapSet st.sessions uid ⟨false, none, tid⟩, st.orderStates⟩ 3 =
      (⟨mapDel (mapSet st.sessions uid ⟨false, none, tid⟩) uid, st.orderStates⟩, 1,
       [2000 * 1, 2000 * 2]) := by
    simp [initializeWithRetry, initializeWithRetryAux, hfail]
  refine ⟨?_, h2, ?_⟩
  · simp [createSession, habs]
  · rw [h2]
    exact mapGet_mapDel_self _ _

theorem C7_init_retry_exhaustion_witness :
    createSession ⟨[], []⟩ "u" none =
      .ok ⟨mapSet [] "u" ⟨false, none, none⟩, []⟩ ∧
    initializeWithRetry (fun _ => false) "u" ⟨mapSet [] "u" ⟨false, none, none⟩, []⟩ 3 =
      (⟨mapDel (mapSet [] "u" ⟨false, none, none⟩) "u", []⟩, 1, [2000 * 1, 2000 * 2]) ∧
    mapGet (initializeWithRetry (fun _ => false) "u"
        ⟨mapSet [] "u" ⟨false, none, none⟩, []⟩ 3).1.sessions "u" = none :=
  C7_init_retry_exhaustion ⟨[], []⟩ "u" none (fun _ => false) rfl (fun _ => rfl)

/-! ## Idle-reclamation sweep (C8, modelled from the spec) -/

theorem sweep_keys_sublist (cfg : CleanupConfig) (now : Nat)
    (reg : List (String × SweepSession)) :
    ((sweepOnce cfg now reg).map Prod.fst).Sublist (reg.map Prod.fst) :=
  (List.filter_sublist reg).map Prod.fst

theorem runSweeps_keys_nodup (cfg : CleanupConfig) (t0 : Nat) (K : Nat)
    (reg : List (String × SweepSession)) (h : (reg.map Prod.fst).Nodup) :
    ((runSweeps cfg t0 K reg).map Prod.fst).Nodup := by
  induction K with
  | zero => exact h
  | succ k ih => exact List.Nodup.sublist (sweep_keys_sublist _ _ _) ih

/-- C8 (modelled from the spec): one sweep tick retains exactly the sessions
not meeting the reclamation criterion; a session for which no tick up to `K`
meets the criterion is still registered after `K` sweeps (not removed
before); and if the criterion first holds at tick `K + 1`, the session is
gone right after that tick. -/
theorem C8_idle_sweep :
    (∀ (cfg : CleanupConfig) (now : Nat) (reg : List (String × SweepSession))
        (p : String × SweepSession),
        p ∈ sweepOnce cfg now reg ↔ p ∈ reg ∧ shouldReclaim cfg now p.2 = false) ∧
    (∀ (cfg : CleanupConfig) (t0 : Nat) (reg : List (String × SweepSession))
        (uid : String) (s : SweepSession) (K : Nat),
        mapGet reg uid = some s →
        (∀ k, 1 ≤ k → k ≤ K → shouldReclaim cfg (tickAt cfg t0 k) s = false) →
        mapGet (runSweeps cfg t0 K reg) uid = some s) ∧
    (∀ (cfg : CleanupConfig) (t0 : Nat) (reg : List (String × SweepSession))
        (uid : String) (s : SweepSession) (K : Nat),
        (reg.map Prod.fst).Nodup →
        mapGet reg uid = some s →
        (∀ k, 1 ≤ k → k ≤ K → shouldReclaim cfg (tickAt cfg t0 k) s = false) →
        shouldReclaim cfg (tickAt cfg t0 (K + 1)) s = true →
        mapGet (runSweeps cfg t0 (K + 1) reg) uid = none) := by
  have hkeep : ∀ (cfg : CleanupConfig) (t0 : Nat) (reg : List (String × SweepSession))
      (uid : String) (s : SweepSession) (K : Nat),
      mapGet reg uid = some s →
      (∀ k, 1 ≤ k → k ≤ K → shouldReclaim cfg (tickAt cfg t0 k) s = false) →
      mapGet (runSweeps cfg t0 K reg) uid = some s := by
    intro cfg t0 reg uid s K hm hK
    induction K with
    | zero => exact hm
    | succ k ih =>
        have hprev : mapGet (runSweeps cfg t0 k reg) uid = some s :=
          ih (fun j hj1 hj2 => hK j hj1 (Nat.le_succ_of_le hj2))
        show mapGet (sweepOnce cfg (tickAt cfg t0 (k + 1)) (runSweeps cfg t0 k reg))
            uid = some s
        apply mapGet_filter_keep _ _ _ _ hprev
        simp [hK (k + 1) (Nat.le_add_left 1 k) (Nat.le_refl _)]
  refine ⟨?_, hkeep, ?_⟩
  · intro cfg now reg p
    simp [sweepOnce, List.mem_filter]
  · intro cfg t0 reg uid s K hnod hm hK hrec
    have hprev : mapGet (runSweeps cfg t0 K reg) uid = some s := hkeep _ _ _ _ _ _ hm hK
    show mapGet (sweepOnce cfg (tickAt cfg t0 (K + 1)) (runSweeps cfg t0 K reg))
        uid = none
    apply mapGet_filter_drop _ _ s _ (runSweeps_keys_nodup cfg t0 K reg hnod) hprev
    simp [hrec]

theorem C8_idle_sweep_witness :
    (("u", sweepSess) ∈ sweepOnce cfgSweep 300000 [("u", sweepSess)] ↔
      ("u", sweepSess) ∈ [("u", sweepSess)] ∧
        shouldReclaim cfgSweep 300000 sweepSess = false) ∧
    mapGet (runSweeps cfgSweep 0 12 [("u", sweepSess)]) "u" = some sweepSess ∧
    mapGet (runSweeps cfgSweep 0 13 [("u", sweepSess)]) "u" = none :=
  ⟨C8_idle_sweep.1 cfgSweep 300000 [("u", sweepSess)] ("u", sweepSess),
   C8_idle_sweep.2.1 cfgSweep 0 [("u", sweepSess)] "u" sweepSess 12 rfl
     (by intro k h1 h2; interval_cases k <;> decide),
   C8_idle_sweep.2.2 cfgSweep 0 [("u", sweepSess)] "u" sweepSess 12 (by decide) rfl
     (by intro k h1 h2; interval_cases k <;> decide) (by decide)⟩

/-! ## clearSession idempotence (C9) -/

/-- C9 counterexample: clearing an already-cleared id twice does not surface
`NotFound` semantics — the second call (like the first) throws nothing,
reports no not-found, and emits `sessionCleared` as a plain success. -/
theorem C9_clear_notfound_counterexample :
    (clearSession (clearSession fsEmpty "u" none).state "u" none).notFoundLogged = false ∧
    (clearSession (clearSession fsEmpty "u" none).state "u" none).threw = false ∧
    (clearSession (clearSession fsEmpty "u" none).state "u" none).emitted =
      ["sessionCleared"] := by
  decide

theorem filter_ne_idem (l : List String) (x : String) :
    (l.filter (fun p => p ≠ x)).filter (fun p => p ≠ x) =
      l.filter (fun p => p ≠ x) := by
  induction l with
  | nil => rfl
  | cons a as ih =>
      by_cases h : a = x
      · simp [h, ih]
      · simp [h, ih]

/-- C9 (amended): calling `clearSession` on an absent id never throws and
reports no not-found — it completes as a plain success emitting
`sessionCleared` — and a second call in a row behaves identically and leaves
the state exactly where the first call left it (idempotence without
`NotFound` semantics). -/
theorem C9_clear_idempotent (s : FullState) (uid : String)
    (habs : mapGet s.mgr.sessions uid = none) :
    (clearSession s uid none).threw = false ∧
    (clearSession s uid none).notFoundLogged = false ∧
    (clearSession s uid none).emitted = ["sessionCleared"] ∧
    (clearSession (clearSession s uid none).state uid none).threw = false ∧
    (clearSession (clearSession s uid none).state uid none).notFoundLogged = false ∧
    (clearSession (clearSession s uid none).state uid none).emitted =
      ["sessionCleared"] ∧
    (clearSession (clearSession s uid none).state uid none).state =
      (clearSession s uid none).state := by
  have h1 : (mapGet s.mgr.sessions uid).isSome = false := by rw [habs]; rfl
  refine ⟨?_, ?_, ?_, ?_, ?_, ?_, ?_⟩ <;>
    simp [clearSession, h1, filter_ne_idem]

theorem C9_clear_idempotent_witness :
    (clearSession fsEmpty "u" none).threw = false ∧
    (clearSession fsEmpty "u" none).notFoundLogged = false ∧
    (clearSession fsEmpty "u" none).emitted = ["sessionCleared"] ∧
    (clearSession (clearSession fsEmpty "u" none).state "u" none).threw = false ∧
    (clearSession (clearSession fsEmpty "u" none).state "u" none).notFoundLogged = false ∧
    (clearSession (clearSession fsEmpty "u" none).state "u" none).emitted =
      ["sessionCleared"] ∧
    (clearSession (clearSession fsEmpty "u" none).state "u" none).state =
      (clearSession fsEmpty "u" none).state :=
  C9_clear_idempotent fsEmpty "u" rfl

/-! ## Flow-error fallthrough (C10) -/

theorem flowCatch_spec (om : List (String × OrderState)) (sent : List String)
    (key : String) (env : Env) (h : env.sendOk = true) :
    (flowCatch om sent key env).ret = some false ∧
    mapGet (flowCatch om sent key env).orderStates key = none ∧
    supportMsg ∈ (flowCatch om sent key env).sent := by
  unfold flowCatch
  rw [if_pos h]
  exact ⟨rfl, mapGet_mapDel_self _ _, by simp⟩

theorem handleOrderFlow_shape (st : ManagerState) (os : OrderState) (msg : Msg)
    (tid : Option Nat) (phone uid : String) (env : Env) :
    (∃ om' sent', handleOrderFlow st os msg tid phone uid env =
        flowCatch om' sent' (tenantKey tid phone) env) ∨
    (handleOrderFlow st os msg tid phone uid env).caught = false := by
  unfold handleOrderFlow awaitingInfoFinish infoForwardCatch
  dsimp only
  repeat' split
  all_goals first
    | (left; exact ⟨_, _, rfl⟩)
    | (right; rfl)

theorem handleOrderFlow_caught (st : ManagerState) (os : OrderState) (msg : Msg)
    (tid : Option Nat) (phone uid : String) (env : Env)
    (hsend : env.sendOk = true)
    (hc : (handleOrderFlow st os msg tid phone uid env).caught = true) :
    (handleOrderFlow st os msg tid phone uid env).ret = some false ∧
    mapGet (handleOrderFlow st os msg tid phone uid env).orderStates
      (tenantKey tid phone) = none ∧
    supportMsg ∈ (handleOrderFlow st os msg tid phone uid env).sent := by
  rcases handleOrderFlow_shape st os msg tid phone uid env with ⟨om', sent', heq⟩ | hf
  · rw [heq]
    exact flowCatch_spec om' sent' _ env hsend
  · rw [hf] at hc
    cases hc

/-- C10 counterexample: when `handleOrderFlow` throws while the triggering
message also matches a tenant file request, the fallthrough pipeline sends
the requested file instead of an AI-generated reply — the customer gets the
support apology plus the file, and no AI reply at all. -/
theorem C10_fallthrough_counterexample :
    (handleOrderFlow stInfo osAwaitInfo msgCatalogue (some 1) "c" "u" envC10).caught =
      true ∧
    (handleMessage stInfo "u" msgCatalogue envC10).2.1 =
      [supportMsg, fileCaption tfCatalogue] ∧
    aiReply envC10.aiOutcome ∉ (handleMessage stInfo "u" msgCatalogue envC10).2.1 := by
  decide

/-- C10 (amended): if `handleOrderFlow` throws while processing a message
(and the support-apology send succeeds), the pair's state entry is deleted
and the flow returns false, so the same message continues through the normal
pipeline; provided the message matches no tenant file request and the
transport sends succeed, the customer receives both the support apology and
the AI-generated reply, with no exception escaping the handler. -/
theorem C10_flow_error_fallthrough (st : ManagerState) (uid : String)
    (si : SessionInfo) (msg : Msg) (env : Env) (os : OrderState)
    (hsi : mapGet st.sessions uid = some si)
    (hos : mapGet st.orderStates (tenantKey si.tenantId msg.sender) = some os)
    (hbc : msg.sender ≠ "status@broadcast") (hfm : msg.fromMe = false)
    (hchat : env.getChatOk = true) (htyp : env.typingOk = true)
    (hsend : env.sendOk = true)
    (hfile : detectFileRequest msg.body si.tenantId env = none)
    (hc : (handleOrderFlow st os msg si.tenantId msg.sender uid env).caught = true) :
    (handleOrderFlow st os msg si.tenantId msg.sender uid env).ret = some false ∧
    mapGet (handleOrderFlow st os msg si.tenantId msg.sender uid env).orderStates
      (tenantKey si.tenantId msg.sender) = none ∧
    supportMsg ∈ (handleMessage st uid msg env).2.1 ∧
    aiReply env.aiOutcome ∈ (handleMessage st uid msg env).2.1 ∧
    (handleMessage st uid msg env).2.2 = false := by
  obtain ⟨hret, hdel, hsup⟩ :=
    handleOrderFlow_caught st os msg si.tenantId msg.sender uid env hsend hc
  have hbc2 : ¬ (msg.sender = "status@broadcast" ∨ msg.fromMe = true) := by
    rintro (h | h)
    · exact hbc h
    · rw [hfm] at h; cases h
  have hmeq : handleMessage st uid msg env =
      handleMessageRest
        ⟨st.sessions,
         (handleOrderFlow st os msg si.tenantId msg.sender uid env).orderStates⟩
        (handleOrderFlow st os msg si.tenantId msg.sender uid env).sent
        (tenantKey si.tenantId msg.sender) si.tenantId msg env := by
    unfold handleMessage
    rw [if_neg hbc2, if_pos hchat]
    simp only [hsi, hos, hret]
  have hrest : ∃ tail,
      (handleMessageRest
        ⟨st.sessions,
         (handleOrderFlow st os msg si.tenantId msg.sender uid env).orderStates⟩
        (handleOrderFlow st os msg si.tenantId msg.sender uid env).sent
        (tenantKey si.tenantId msg.sender) si.tenantId msg env).2.1 =
        (handleOrderFlow st os msg si.tenantId msg.sender uid env).sent ++
          (aiReply env.aiOutcome :: tail) ∧
      (handleMessageRest
        ⟨st.sessions,
         (handleOrderFlow st os msg si.tenantId msg.sender uid env).orderStates⟩
        (handleOrderFlow st os msg si.tenantId msg.sender uid env).sent
        (tenantKey si.tenantId msg.sender) si.tenantId msg env).2.2 = false := by
    unfold handleMessageRest handleMessageAI
    rw [if_pos htyp, hfile]
    by_cases hint : detectPurchaseIntent msg.body (aiReply env.aiOutcome) = true
    · rw [if_pos hint, if_pos hsend]
      exact ⟨[buildOrderConfirmationMessage (aiReply env.aiOutcome)], rfl, rfl⟩
    · rw [if_neg hint, if_pos hsend]
      exact ⟨[], rfl, rfl⟩
  obtain ⟨tail, hsent, hthrew⟩ := hrest
  rw [hmeq]
  refine ⟨hret, hdel, ?_, ?_, hthrew⟩
  · rw [hsent]
    exact List.mem_append_left _ hsup
  · rw [hsent]
    exact List.mem_append_right _ (List.mem_cons_self _ _)

theorem C10_flow_error_fallthrough_witness :
    (handleOrderFlow stInfo osAwaitInfo msgHello siReady.tenantId msgHello.sender "u"
        envC10b).ret = some false ∧
    mapGet (handleOrderFlow stInfo osAwaitInfo msgHello siReady.tenantId
        msgHello.sender "u" envC10b).orderStates
      (tenantKey siReady.tenantId msgHello.sender) = none ∧
    supportMsg ∈ (handleMessage stInfo "u" msgHello envC10b).2.1 ∧
    aiReply envC10b.aiOutcome ∈ (handleMessage stInfo "u" msgHello envC10b).2.1 ∧
    (handleMessage stInfo "u" msgHello envC10b).2.2 = false :=
  C10_flow_error_fallthrough stInfo "u" siReady msgHello envC10b osAwaitInfo
    (by decide) (by decide) (by decide) rfl rfl rfl rfl (by decide) (by decide)

end WABot
